import Mathlib

/-!
Verification development for the meta-core sidecar (Go).

Shallow embedding of the components the claims touch:
* the CID computation of `Server.handleComputeFileCID` (SHA-256, multihash
  framing, base32 multibase) from `internal/api/handlers.go`;
* the leader-election state machine of `internal/leader` (leader-info
  publish/read with write-to-temp-then-rename, the health-check tick, the
  follower transition), including an executable model of the
  `encoding/json` marshalling of `LeaderLockInfo` restricted to its schema;
* the watcher pipeline of `internal/watcher` (debouncer, event ring buffer,
  initial scan, recent-event query) and the webhook dispatcher retry loop.

Machine integers are modelled as `Nat`/`Int` with explicit reduction
modulo `2 ^ 32` where the Go code relies on 32-bit wraparound (SHA-256).
Filesystems, subscriber maps and pending-event maps are association lists.
Side effects (storage connects, callbacks, readiness waits) are recorded as
explicit traces in the state so that claims about "calls X" are statable.
-/

namespace MetaCore

/-! ## 32-bit word helpers and SHA-256 (crypto/sha256 as used by the code) -/

/-- Reduce to a 32-bit word. -/
def w32 (x : Nat) : Nat := x % 4294967296

/-- 32-bit right rotation. -/
def rotr32 (n x : Nat) : Nat := w32 (Nat.lor (x >>> n) (x <<< (32 - n)))

def smallSigma0 (x : Nat) : Nat := w32 (Nat.xor (Nat.xor (rotr32 7 x) (rotr32 18 x)) (x >>> 3))

def smallSigma1 (x : Nat) : Nat := w32 (Nat.xor (Nat.xor (rotr32 17 x) (rotr32 19 x)) (x >>> 10))

def bigSigma0 (x : Nat) : Nat := w32 (Nat.xor (Nat.xor (rotr32 2 x) (rotr32 13 x)) (rotr32 22 x))

def bigSigma1 (x : Nat) : Nat := w32 (Nat.xor (Nat.xor (rotr32 6 x) (rotr32 11 x)) (rotr32 25 x))

def chFn (x y z : Nat) : Nat := w32 (Nat.xor (Nat.land x y) (Nat.land (Nat.xor x 4294967295) z))

def majFn (x y z : Nat) : Nat := w32 (Nat.xor (Nat.xor (Nat.land x y) (Nat.land x z)) (Nat.land y z))

/-- The 64 SHA-256 round constants, in quarters of sixteen. -/
def sha256K : List Nat :=
  ([0x428a2f98, 0x71374491, 0xb5c0fbcf, 0xe9b5dba5] ++
   [0x3956c25b, 0x59f111f1, 0x923f82a4, 0xab1c5ed5] ++
   [0xd807aa98, 0x12835b01, 0x243185be, 0x550c7dc3] ++
   [0x72be5d74, 0x80deb1fe, 0x9bdc06a7, 0xc19bf174]) ++
  ([0xe49b69c1, 0xefbe4786, 0x0fc19dc6, 0x240ca1cc] ++
   [0x2de92c6f, 0x4a7484aa, 0x5cb0a9dc, 0x76f988da] ++
   [0x983e5152, 0xa831c66d, 0xb00327c8, 0xbf597fc7] ++
   [0xc6e00bf3, 0xd5a79147, 0x06ca6351, 0x14292967]) ++
  ([0x27b70a85, 0x2e1b2138, 0x4d2c6dfc, 0x53380d13] ++
   [0x650a7354, 0x766a0abb, 0x81c2c92e, 0x92722c85] ++
   [0xa2bfe8a1, 0xa81a664b, 0xc24b8b70, 0xc76c51a3] ++
   [0xd192e819, 0xd6990624, 0xf40e3585, 0x106aa070]) ++
  ([0x19a4c116, 0x1e376c08, 0x2748774c, 0x34b0bcb5] ++
   [0x391c0cb3, 0x4ed8aa4a, 0x5b9cca4f, 0x682e6ff3] ++
   [0x748f82ee, 0x78a5636f, 0x84c87814, 0x8cc70208] ++
   [0x90befffa, 0xa4506ceb, 0xbef9a3f7, 0xc67178f2])

/-- Big-endian serialization of `x` into `n` bytes. -/
def beBytes : Nat → Nat → List Nat
  | 0, _ => []
  | m + 1, x => beBytes m (x / 256) ++ [x % 256]

/-- Group a byte list into big-endian 32-bit words. -/
def toWordsBE : List Nat → List Nat
  | b0 :: b1 :: b2 :: b3 :: rest => (((b0 * 256 + b1) * 256 + b2) * 256 + b3) :: toWordsBE rest
  | _ => []

/-- One step of message-schedule extension: append word `w[i]` for `i = ws.length`. -/
def scheduleStep (ws : List Nat) : List Nat :=
  ws ++ [w32 (ws.getD (ws.length - 16) 0 + smallSigma0 (ws.getD (ws.length - 15) 0) +
              ws.getD (ws.length - 7) 0 + smallSigma1 (ws.getD (ws.length - 2) 0))]

/-- Extend the 16-word schedule by `n` additional words. -/
def buildSchedule (ws : List Nat) : Nat → List Nat
  | 0 => ws
  | n + 1 => scheduleStep (buildSchedule ws n)

/-- The eight SHA-256 working registers / hash words. -/
structure Hash8 where
  h0 : Nat
  h1 : Nat
  h2 : Nat
  h3 : Nat
  h4 : Nat
  h5 : Nat
  h6 : Nat
  h7 : Nat
deriving DecidableEq, Repr

def sha256Init : Hash8 :=
  { h0 := 0x6a09e667, h1 := 0xbb67ae85, h2 := 0x3c6ef372, h3 := 0xa54ff53a,
    h4 := 0x510e527f, h5 := 0x9b05688c, h6 := 0x1f83d9ab, h7 := 0x5be0cd19 }

/-- One SHA-256 compression round, consuming a `(k, w)` pair. -/
def compressStep (st : Hash8) (kw : Nat × Nat) : Hash8 :=
  let t1 := w32 (st.h7 + bigSigma1 st.h4 + chFn st.h4 st.h5 st.h6 + kw.1 + kw.2)
  let t2 := w32 (bigSigma0 st.h0 + majFn st.h0 st.h1 st.h2)
  ⟨w32 (t1 + t2), st.h0, st.h1, st.h2, w32 (st.h3 + t1), st.h4, st.h5, st.h6⟩

/-- Process one padded 64-byte block. -/
def processBlock (st : Hash8) (block : List Nat) : Hash8 :=
  let ws := buildSchedule (toWordsBE block) 48
  let o := (sha256K.zip ws).foldl compressStep st
  ⟨w32 (st.h0 + o.h0), w32 (st.h1 + o.h1), w32 (st.h2 + o.h2), w32 (st.h3 + o.h3),
   w32 (st.h4 + o.h4), w32 (st.h5 + o.h5), w32 (st.h6 + o.h6), w32 (st.h7 + o.h7)⟩

/-- SHA-256 padding: `0x80`, zeros to 56 mod 64, then the 64-bit bit length. -/
def sha256Pad (msg : List Nat) : List Nat :=
  msg ++ [128] ++ List.replicate ((119 - msg.length % 64) % 64) 0 ++ beBytes 8 (8 * msg.length)

/-- Split a byte list into 64-byte blocks. -/
def chunks64 (l : List Nat) : List (List Nat) :=
  match l with
  | [] => []
  | a :: rest => (a :: rest).take 64 :: chunks64 (rest.drop 63)
termination_by l.length
decreasing_by simp [List.length_drop]; omega

/-- SHA-256 of a byte list, as a 32-byte list. -/
def sha256 (msg : List Nat) : List Nat :=
  let f := (chunks64 (sha256Pad msg)).foldl processBlock sha256Init
  beBytes 4 f.h0 ++ beBytes 4 f.h1 ++ beBytes 4 f.h2 ++ beBytes 4 f.h3 ++
  beBytes 4 f.h4 ++ beBytes 4 f.h5 ++ beBytes 4 f.h6 ++ beBytes 4 f.h7

/-! ## Base32 (encoding/base32 StdEncoding, no padding) and the CID pipeline -/

/-- The eight bits of a byte, most significant first. -/
def byteBits (b : Nat) : List Bool :=
  [b / 128 % 2 == 1, b / 64 % 2 == 1, b / 32 % 2 == 1, b / 16 % 2 == 1,
   b / 8 % 2 == 1, b / 4 % 2 == 1, b / 2 % 2 == 1, b % 2 == 1]

/-- Value of a most-significant-first bit list. -/
def bitsVal (l : List Bool) : Nat :=
  l.foldl (fun a b => 2 * a + (if b then 1 else 0)) 0

/-- Pad a bit group to 5 bits with zero bits (the final partial quantum). -/
def pad5 (l : List Bool) : List Bool := l ++ List.replicate (5 - l.length) false

/-- The standard base32 alphabet used by `base32.StdEncoding`. -/
def b32Char (n : Nat) : Char := "ABCDEFGHIJKLMNOPQRSTUVWXYZ234567".data.getD n 'A'

/-- Unpadded base32 encoding of a bit stream, 5 bits per character. -/
def encodeB32 (bits : List Bool) : List Char :=
  match bits with
  | [] => []
  | b :: rest => b32Char (bitsVal (pad5 ((b :: rest).take 5))) :: encodeB32 (rest.drop 4)
termination_by bits.length
decreasing_by simp [List.length_drop]; omega

/-- `strings.ToLower` on an ASCII letter. -/
def lowerChar (c : Char) : Char :=
  if 'A' ≤ c ∧ c ≤ 'Z' then Char.ofNat (c.toNat + 32) else c

/-- The CID byte string assembled by `handleComputeFileCID`:
version `0x01`, codec `0x55` (raw), multihash code `0x12`, length `0x20`,
then the 32-byte SHA-256 digest of the whole file. -/
def cidBytes (fileBytes : List Nat) : List Nat :=
  0x01 :: 0x55 :: 0x12 :: 0x20 :: sha256 fileBytes

/-- The content identifier returned by `POST /file/cid`:
`"b" + strings.ToLower(base32.StdEncoding.WithPadding(NoPadding).EncodeToString(cidBytes))`. -/
def computeFileCID (fileBytes : List Nat) : List Char :=
  'b' :: (encodeB32 ((cidBytes fileBytes).flatMap byteBits)).map lowerChar

/-- Lowercase hex digit. -/
def hexDigitLower (n : Nat) : Char :=
  if n < 10 then Char.ofNat (48 + n) else Char.ofNat (87 + n)

/-- Hex encoding of a byte list (`hex.EncodeToString`). -/
def hexChars (l : List Nat) : List Char :=
  l.flatMap (fun b => [hexDigitLower (b / 16 % 16), hexDigitLower (b % 16)])

/-! ## LeaderLockInfo and its `encoding/json` marshalling

`LeaderLockInfo` carries the leader coordinates (`internal/leader`,
struct `LeaderLockInfo`).  Strings are modelled as `List Char`, the two
64-bit/`int` fields as `Int`.  `marshalLeaderInfo` reproduces the exact
byte-for-byte output of `json.MarshalIndent(info, "", "  ")` including
Go's HTML-aware string escaping and the `omitempty` on `baseUrl`;
`unmarshalLeaderInfo` is an executable model of `json.Unmarshal` restricted
to the scalar object schema of this struct (string and integer fields,
unknown keys ignored, bounded field count). -/

def lbraceChar : Char := Char.ofNat 123

def rbraceChar : Char := Char.ofNat 125

structure LeaderLockInfo where
  host : List Char
  api : List Char
  http : List Char
  baseUrl : List Char
  timestamp : Int
  pid : Int
deriving DecidableEq, Repr

/-- The zero value `encoding/json` starts from (`var info LeaderLockInfo`). -/
def zeroLeaderLockInfo : LeaderLockInfo := ⟨[], [], [], [], 0, 0⟩

/-- Go `encoding/json` escaping of one character inside a string literal
(default encoder: HTML-escapes angle brackets and ampersand, shorthand for
newline / carriage return / tab, `\u00XX` for other control characters,
` `/` ` escaped). -/
def escChar (c : Char) : List Char :=
  if c = '"' then ['\\', '"']
  else if c = '\\' then ['\\', '\\']
  else if c = '\n' then ['\\', 'n']
  else if c = '\r' then ['\\', 'r']
  else if c = '\t' then ['\\', 't']
  else if c = '<' ∨ c = '>' ∨ c = '&' ∨ c.toNat < 32 then
    ['\\', 'u', '0', '0', hexDigitLower (c.toNat / 16), hexDigitLower (c.toNat % 16)]
  else if c.toNat = 0x2028 ∨ c.toNat = 0x2029 then
    ['\\', 'u', '2', '0', '2', hexDigitLower (c.toNat % 16)]
  else [c]

def escapeChars (s : List Char) : List Char := s.flatMap escChar

/-- Decimal digit character. -/
def digitChar (d : Nat) : Char := Char.ofNat (48 + d)

/-- Big-endian decimal digits of `n`, by structural recursion on a fuel
bound (so that the definition evaluates inside the kernel). -/
def natCharsAux : Nat → Nat → List Char
  | 0, _ => []
  | fuel + 1, n => if n = 0 then [] else natCharsAux fuel (n / 10) ++ [digitChar (n % 10)]

/-- Decimal representation of a natural number (`strconv`-style, base 10). -/
def natChars (m : Nat) : List Char :=
  if m = 0 then ['0'] else natCharsAux (m + 1) m

/-- Decimal representation of an integer. -/
def intChars (i : Int) : List Char :=
  if i < 0 then '-' :: natChars i.natAbs else natChars i.toNat

def keyHost : List Char := ['h', 'o', 's', 't']

def keyApi : List Char := ['a', 'p', 'i']

def keyHttp : List Char := ['h', 't', 't', 'p']

def keyBaseUrl : List Char := ['b', 'a', 's', 'e', 'U', 'r', 'l']

def keyTimestamp : List Char := ['t', 'i', 'm', 'e', 's', 't', 'a', 'm', 'p']

def keyPid : List Char := ['p', 'i', 'd']

/-- One `"key": "string"` item of the indented output. -/
def fieldStr (key : List Char) (v : List Char) : List Char :=
  '"' :: key ++ ['"', ':', ' ', '"'] ++ escapeChars v ++ ['"']

/-- One `"key": number` item of the indented output. -/
def fieldInt (key : List Char) (i : Int) : List Char :=
  '"' :: key ++ ['"', ':', ' '] ++ intChars i

/-- Separator between items: comma, newline, two-space indent. -/
def sepInd : List Char := [',', '\n', ' ', ' ']

/-- Exact output of `json.MarshalIndent(info, "", "  ")` for `LeaderLockInfo`:
fields in declaration order, `baseUrl` omitted when empty (`omitempty`). -/
def marshalLeaderInfo (info : LeaderLockInfo) : List Char :=
  [lbraceChar, '\n', ' ', ' '] ++ fieldStr keyHost info.host ++
  sepInd ++ fieldStr keyApi info.api ++
  sepInd ++ fieldStr keyHttp info.http ++
  (if info.baseUrl = [] then [] else sepInd ++ fieldStr keyBaseUrl info.baseUrl) ++
  sepInd ++ fieldInt keyTimestamp info.timestamp ++
  sepInd ++ fieldInt keyPid info.pid ++
  ['\n', rbraceChar]

/-- JSON whitespace skipping. -/
def skipWs : List Char → List Char
  | [] => []
  | c :: r => if c = ' ' ∨ c = '\n' ∨ c = '\t' ∨ c = '\r' then skipWs r else c :: r

/-- Hex digit value. -/
def hexVal (c : Char) : Option Nat :=
  if '0' ≤ c ∧ c ≤ '9' then some (c.toNat - 48)
  else if 'a' ≤ c ∧ c ≤ 'f' then some (c.toNat - 87)
  else if 'A' ≤ c ∧ c ≤ 'F' then some (c.toNat - 55)
  else none

/-- Single-character escape decoding. -/
def escDecode (e : Char) : Option Char :=
  if e = '"' then some '"'
  else if e = '\\' then some '\\'
  else if e = '/' then some '/'
  else if e = 'b' then some (Char.ofNat 8)
  else if e = 'f' then some (Char.ofNat 12)
  else if e = 'n' then some '\n'
  else if e = 'r' then some '\r'
  else if e = 't' then some '\t'
  else none

/-- Parse the body of a JSON string up to and including the closing quote. -/
def parseStringBody : List Char → Option (List Char × List Char)
  | [] => none
  | c :: r =>
    if c = '"' then some ([], r)
    else if c = '\\' then
      match r with
      | [] => none
      | e :: r2 =>
        if e = 'u' then
          match r2 with
          | h1 :: h2 :: h3 :: h4 :: r3 =>
            match hexVal h1, hexVal h2, hexVal h3, hexVal h4 with
            | some a, some b, some c2, some d =>
              (parseStringBody r3).map
                (fun p => (Char.ofNat (((a * 16 + b) * 16 + c2) * 16 + d) :: p.1, p.2))
            | _, _, _, _ => none
          | _ => none
        else
          match escDecode e with
          | some ch => (parseStringBody r2).map (fun p => (ch :: p.1, p.2))
          | none => none
    else (parseStringBody r).map (fun p => (c :: p.1, p.2))

/-- Decimal digit test. -/
def isDigitC (c : Char) : Bool := decide ('0' ≤ c ∧ c ≤ '9')

/-- Value of a digit string. -/
def charsToNat (l : List Char) : Nat := l.foldl (fun a c => 10 * a + (c.toNat - 48)) 0

/-- Parse a (possibly negative) JSON integer. -/
def parseNumber (l : List Char) : Option (Int × List Char) :=
  match l with
  | [] => none
  | c :: r =>
    if c = '-' then
      let ds := r.takeWhile isDigitC
      if ds = [] then none else some (-(charsToNat ds : Int), r.dropWhile isDigitC)
    else
      let ds := (c :: r).takeWhile isDigitC
      if ds = [] then none else some ((charsToNat ds : Int), (c :: r).dropWhile isDigitC)

/-- JSON scalar value (the only value forms in the leader-info schema). -/
inductive JVal where
  | str (s : List Char)
  | num (i : Int)
deriving DecidableEq

/-- Parse a JSON scalar value. -/
def parseValue (l : List Char) : Option (JVal × List Char) :=
  match l with
  | [] => none
  | c :: r =>
    if c = '"' then (parseStringBody r).map (fun p => (JVal.str p.1, p.2))
    else (parseNumber (c :: r)).map (fun p => (JVal.num p.1, p.2))

/-- Assign a parsed field into the struct; wrong value types are errors,
unknown keys are ignored (as `encoding/json` does). -/
def setField (info : LeaderLockInfo) (key : List Char) (v : JVal) : Option LeaderLockInfo :=
  if key = keyHost then
    match v with | .str s => some { info with host := s } | _ => none
  else if key = keyApi then
    match v with | .str s => some { info with api := s } | _ => none
  else if key = keyHttp then
    match v with | .str s => some { info with http := s } | _ => none
  else if key = keyBaseUrl then
    match v with | .str s => some { info with baseUrl := s } | _ => none
  else if key = keyTimestamp then
    match v with | .num i => some { info with timestamp := i } | _ => none
  else if key = keyPid then
    match v with | .num i => some { info with pid := i } | _ => none
  else some info

/-- Parse the members of the object, `fuel` bounding the member count. -/
def parseFields : Nat → LeaderLockInfo → List Char → Option (LeaderLockInfo × List Char)
  | 0, _, _ => none
  | fuel + 1, info, l =>
    match skipWs l with
    | [] => none
    | c :: r =>
      if c = rbraceChar then some (info, r)
      else if c = '"' then
        match parseStringBody r with
        | some (key, r2) =>
          match skipWs r2 with
          | c1 :: r3 =>
            if c1 = ':' then
              match parseValue (skipWs r3) with
              | some (v, r4) =>
                match setField info key v with
                | some info2 =>
                  match skipWs r4 with
                  | c2 :: r5 =>
                    if c2 = ',' then parseFields fuel info2 r5
                    else if c2 = rbraceChar then some (info2, r5)
                    else none
                  | [] => none
                | none => none
              | none => none
            else none
          | [] => none
        | none => none
      else none

/-- Executable model of `json.Unmarshal(data, &info)` for `LeaderLockInfo`. -/
def unmarshalLeaderInfo (l : List Char) : Option LeaderLockInfo :=
  match skipWs l with
  | [] => none
  | c :: r =>
    if c = lbraceChar then
      match parseFields 8 zeroLeaderLockInfo r with
      | some (info, rest) => if skipWs rest = [] then some info else none
      | none => none
    else none

/-! ## Election state machine (`internal/leader`, `Election`)

The filesystem the election reads and writes (the shared volume) is an
association list from path to file content.  Calls to the storage
connector, the supervisor, and the role callbacks are recorded as traces
so that claims of the form "it calls `storage.connect`" are statable. -/

/-- File path → file content. -/
abbrev FsMap := List (List Char × List Char)

def fsLookup : FsMap → List Char → Option (List Char)
  | [], _ => none
  | (p, c) :: r, q => if p = q then some c else fsLookup r q

def fsRemove : FsMap → List Char → FsMap
  | [], _ => []
  | (p, c) :: r, q => if p = q then fsRemove r q else (p, c) :: fsRemove r q

/-- `os.WriteFile`: create or overwrite. -/
def fsWrite (fs : FsMap) (p : List Char) (content : List Char) : FsMap :=
  (p, content) :: fsRemove fs p

/-- `os.Rename`: move the content at `src` to `dst`; errors if `src` is absent. -/
def fsRename (fs : FsMap) (src dst : List Char) : Option FsMap :=
  (fsLookup fs src).map (fun data => fsWrite (fsRemove fs src) dst data)

inductive Role where
  | unknown
  | leader
  | follower
deriving DecidableEq, Repr

structure ElectionConfig where
  infoFilePath : List Char
deriving DecidableEq

/-- The `<target>.tmp` suffix used by `writeLeaderInfo`. -/
def tmpSuffix : List Char := ['.', 't', 'm', 'p']

/-- Election state plus the observable world: the shared-volume filesystem,
the supervised store, and traces of connector / supervisor / callback calls. -/
structure ElectionWorld where
  fs : FsMap
  role : Role
  leaderInfo : Option LeaderLockInfo
  redisRunning : Bool
  connectCalls : List (List Char)
  redisStartCalls : Nat
  redisWaitReadyCalls : Nat
  leaderCallbackCalls : Nat
  followerCallbackCalls : List LeaderLockInfo
  readInfoCalls : Nat
deriving DecidableEq

/-- `Election.writeLeaderInfo`: marshal, write `<info>.tmp`, rename onto the
info path.  `none` models a rename error (never hit after the temp write). -/
def writeLeaderInfoFs (cfg : ElectionConfig) (fs : FsMap) (info : LeaderLockInfo) : Option FsMap :=
  let data := marshalLeaderInfo info
  let tmp := cfg.infoFilePath ++ tmpSuffix
  fsRename (fsWrite fs tmp data) tmp cfg.infoFilePath

/-- `Election.readLeaderInfo`: absent file is `ok none` (`os.IsNotExist`),
unparseable content is an error. -/
def readLeaderInfoFs (cfg : ElectionConfig) (fs : FsMap) : Except Unit (Option LeaderLockInfo) :=
  match fsLookup fs cfg.infoFilePath with
  | none => .ok none
  | some data =>
    match unmarshalLeaderInfo data with
    | some info => .ok (some info)
    | none => .error ()

/-- `Election.transitionToFollower`: set the role, read the leader info once
(recorded in `readInfoCalls`); a read error aborts; an absent file leaves
`leaderInfo = none` and skips both the storage connect and the callback;
otherwise connect the storage client to `info.api` and fire
`onBecomeFollower(info)`. -/
def transitionToFollower (cfg : ElectionConfig) (w : ElectionWorld) : Except Unit ElectionWorld :=
  let w1 := { w with role := Role.follower, readInfoCalls := w.readInfoCalls + 1 }
  match readLeaderInfoFs cfg w1.fs with
  | .error _ => .error ()
  | .ok none => .ok { w1 with leaderInfo := none }
  | .ok (some info) =>
    .ok { w1 with
          leaderInfo := some info,
          connectCalls := w1.connectCalls ++ [info.api],
          followerCallbackCalls := w1.followerCallbackCalls ++ [info] }

/-- `Election.transitionToLeader`: set the role, start the supervised store
(`startOk` is the spawn outcome), wait for readiness (recorded in
`redisWaitReadyCalls`, `readyOk` is the probe outcome), publish the given
coordinates, connect storage to the local store URL, fire `onBecomeLeader`. -/
def transitionToLeader (cfg : ElectionConfig) (startOk readyOk : Bool)
    (info : LeaderLockInfo) (w : ElectionWorld) : Except Unit ElectionWorld :=
  let w1 := { w with role := Role.leader }
  if !startOk then .error () else
  let w2 := { w1 with redisStartCalls := w1.redisStartCalls + 1, redisRunning := true }
  let w3 := { w2 with redisWaitReadyCalls := w2.redisWaitReadyCalls + 1 }
  if !readyOk then .error () else
  let w4 := { w3 with leaderInfo := some info }
  match writeLeaderInfoFs cfg w4.fs info with
  | none => .error ()
  | some fs2 =>
    .ok { w4 with
          fs := fs2,
          connectCalls := w4.connectCalls ++ [info.api],
          leaderCallbackCalls := w4.leaderCallbackCalls + 1 }

/-- `Election.updateLeaderTimestamp`: when coordinates exist, refresh the
timestamp and republish (a write error is only logged). -/
def updateLeaderTimestamp (cfg : ElectionConfig) (now : Int) (w : ElectionWorld) : ElectionWorld :=
  match w.leaderInfo with
  | some info =>
    let info2 := { info with timestamp := now }
    let w2 := { w with leaderInfo := some info2 }
    match writeLeaderInfoFs cfg w2.fs info2 with
    | some fs2 => { w2 with fs := fs2 }
    | none => w2
  | none => w

/-- `Election.performHealthCheck`.
Leader: refresh the timestamp and republish, then restart the store if it is
not running (`startOk` is the spawn outcome) — no readiness wait is issued.
Follower: read the leader info once (recorded in `readInfoCalls`); on error
or absence do nothing further; otherwise replace the stored coordinates —
no storage connect is issued. -/
def performHealthCheck (cfg : ElectionConfig) (startOk : Bool) (now : Int)
    (w : ElectionWorld) : ElectionWorld :=
  match w.role with
  | Role.leader =>
    let w1 := updateLeaderTimestamp cfg now w
    if w1.redisRunning then w1
    else
      let w2 := { w1 with redisStartCalls := w1.redisStartCalls + 1 }
      if startOk then { w2 with redisRunning := true } else w2
  | Role.follower =>
    let w0 := { w with readInfoCalls := w.readInfoCalls + 1 }
    match readLeaderInfoFs cfg w0.fs with
    | .error _ => w0
    | .ok none => w0
    | .ok (some info) => { w0 with leaderInfo := some info }
  | Role.unknown => w

/-! ## File events and the watcher (`internal/watcher`) -/

inductive FileEventType where
  | add
  | change
  | delete
  | rename
deriving DecidableEq, Repr

/-- `watcher.FileEvent` (types.go). -/
structure FileEvent where
  type : FileEventType
  path : String
  size : Int
  timestamp : Int
  partialHash : String
  oldPath : String
deriving DecidableEq, Repr

/-- Content of the watched tree: path → file bytes. -/
abbrev FileBytesMap := List (String × List Nat)

def bytesLookup : FileBytesMap → String → Option (List Nat)
  | [], _ => none
  | (p, b) :: r, q => if p = q then some b else bytesLookup r q

/-- `computePartialHash`: SHA-256 (hex) of the first 64 KiB of a file;
`none` models the open error for an absent path. -/
def computePartialHashFs (contents : FileBytesMap) (path : String) : Option String :=
  (bytesLookup contents path).map (fun bytes => String.mk (hexChars (sha256 (bytes.take 65536))))

/-- `filepath.Join(filesPath, rel)` for the paths this model handles. -/
def joinPath (base : String) (p : String) : String := base ++ "/" ++ p

/-- Strip a leading prefix, character by character. -/
def dropLead : List Char → List Char → Option (List Char)
  | [], l => some l
  | _, [] => none
  | a :: as, b :: bs => if a = b then dropLead as bs else none

/-- `filepath.Rel(base, p)` followed by `filepath.ToSlash`, for the common
case of `p` inside `base`; on failure the code falls back to `p` itself. -/
def relTo (base : String) (p : String) : String :=
  match dropLead (base.data ++ ['/']) p.data with
  | some rest => String.mk rest
  | none => p

/-- Basename: the part after the last slash. -/
def baseNameOf (p : String) : String :=
  String.mk ((p.data.reverse.takeWhile (fun c => !(c == '/'))).reverse)

/-- `strings.HasPrefix(filepath.Base(path), ".")`. -/
def isHiddenName (p : String) : Bool :=
  match (baseNameOf p).data with
  | '.' :: _ => true
  | _ => false

/-- The watcher-visible state the claims are about: the in-memory event ring
and the trace of events handed to the dispatcher. -/
structure WatcherState where
  eventBuffer : List FileEvent
  dispatched : List FileEvent
deriving DecidableEq

/-- The partial-hash enrichment step at the top of
`Watcher.handleDebouncedEvent` (add/change events only; a hash error leaves
the event unchanged). -/
def enrichEvent (contents : FileBytesMap) (filesPath : String) (event : FileEvent) : FileEvent :=
  if event.type = FileEventType.add ∨ event.type = FileEventType.change then
    match computePartialHashFs contents (joinPath filesPath event.path) with
    | some h => { event with partialHash := h }
    | none => event
  else event

/-- `Watcher.handleDebouncedEvent`: enrich add/change events with the partial
hash, append to the ring buffer, trim the buffer to its newest 5000 entries
when it exceeds 10000, then hand the event to the dispatcher. -/
def handleDebouncedEvent (contents : FileBytesMap) (filesPath : String)
    (s : WatcherState) (event : FileEvent) : WatcherState :=
  { eventBuffer :=
      if 10000 < (s.eventBuffer ++ [enrichEvent contents filesPath event]).length then
        (s.eventBuffer ++ [enrichEvent contents filesPath event]).drop
          ((s.eventBuffer ++ [enrichEvent contents filesPath event]).length - 5000)
      else s.eventBuffer ++ [enrichEvent contents filesPath event],
    dispatched := s.dispatched ++ [enrichEvent contents filesPath event] }

/-- One entry seen by the initial scan walk. -/
structure ScanEntry where
  path : String
  isDir : Bool
  size : Int
deriving DecidableEq

/-- The add event that `scanDirectory` builds for a regular file. -/
def mkScanEvent (contents : FileBytesMap) (filesPath : String) (now : Int)
    (en : ScanEntry) : FileEvent :=
  let e : FileEvent :=
    { type := FileEventType.add, path := relTo filesPath en.path, size := en.size,
      timestamp := now, partialHash := "", oldPath := "" }
  match computePartialHashFs contents en.path with
  | some h => { e with partialHash := h }
  | none => e

/-- `Watcher.scanDirectory`: walk the entries, skip directories and hidden
files, and hand each add event directly to the dispatcher (the debouncer and
the ring buffer are bypassed).  Returns the new state and the file count. -/
def scanDirectory (contents : FileBytesMap) (filesPath : String) (now : Int)
    (s : WatcherState) : List ScanEntry → WatcherState × Nat
  | [] => (s, 0)
  | en :: rest =>
    if en.isDir then scanDirectory contents filesPath now s rest
    else if isHiddenName en.path then scanDirectory contents filesPath now s rest
    else
      let ev := mkScanEvent contents filesPath now en
      let r := scanDirectory contents filesPath now
        { s with dispatched := s.dispatched ++ [ev] } rest
      (r.1, r.2 + 1)

/-- The events a scan over `entries` hands to the dispatcher, in walk order:
one add event per non-directory, non-hidden entry. -/
def scanEventsOf (contents : FileBytesMap) (filesPath : String) (now : Int)
    (entries : List ScanEntry) : List FileEvent :=
  (entries.filter (fun en => !en.isDir && !isHiddenName en.path)).map
    (mkScanEvent contents filesPath now)

/-- `Watcher.GetRecentEvents` inner loop: walk the ring in order, keep events
with timestamp strictly greater than `sinceMS`, stop once `limit` events are
collected (when `limit > 0`). -/
def getRecentEventsLoop (sinceMS limit : Int) : List FileEvent → List FileEvent → List FileEvent
  | [], acc => acc
  | e :: rest, acc =>
    if sinceMS < e.timestamp then
      if 0 < limit ∧ limit ≤ ((acc ++ [e]).length : Int) then acc ++ [e]
      else getRecentEventsLoop sinceMS limit rest (acc ++ [e])
    else getRecentEventsLoop sinceMS limit rest acc

/-- `Watcher.GetRecentEvents`. -/
def getRecentEvents (buffer : List FileEvent) (sinceMS limit : Int) : List FileEvent :=
  getRecentEventsLoop sinceMS limit buffer []

/-! ## Debouncer (`watcher.Debouncer`)

`fireAt` is the scheduled expiry of the per-entry one-shot timer:
`time.AfterFunc(delay, …)` and `Timer.Reset(delay)` arm it at `now + delay`,
and the racy-flush re-arm (`Reset(remaining)`) at `lastSeen + delay`.
Callback invocations are recorded in `fired` as (time, event). -/

structure PendingEventM where
  event : FileEvent
  firstSeen : Int
  lastSeen : Int
  fireAt : Int
deriving DecidableEq

structure DebouncerWorld where
  pending : List (String × PendingEventM)
  fired : List (Int × FileEvent)
  stopped : Bool
deriving DecidableEq

def emptyDebouncer : DebouncerWorld := ⟨[], [], false⟩

def pendLookup : List (String × PendingEventM) → String → Option PendingEventM
  | [], _ => none
  | (k, v) :: r, q => if k = q then some v else pendLookup r q

def pendSet : List (String × PendingEventM) → String → PendingEventM →
    List (String × PendingEventM)
  | [], _, _ => []
  | (a, b) :: rest, k, v =>
    if a = k then (k, v) :: pendSet rest k v else (a, b) :: pendSet rest k v

def pendRemove : List (String × PendingEventM) → String → List (String × PendingEventM)
  | [], _ => []
  | (k, v) :: r, q => if k = q then pendRemove r q else (k, v) :: pendRemove r q

/-- `Debouncer.Add` at wall-clock time `now`: latest event wins, `lastSeen`
refreshed, timer reset to `delay`; a fresh path gets a new entry with a
one-shot timer at `now + delay`. -/
def debAdd (delay now : Int) (e : FileEvent) (w : DebouncerWorld) : DebouncerWorld :=
  if w.stopped then w
  else
    match pendLookup w.pending e.path with
    | some ex =>
      let ex2 := { ex with lastSeen := now, event := e, fireAt := now + delay }
      { w with pending := pendSet w.pending e.path ex2 }
    | none =>
      { w with pending := w.pending ++ [(e.path, ⟨e, now, now, now + delay⟩)] }

/-- `Debouncer.flush` running at time `now` for `key`: if the entry has been
touched within the window, re-arm for the remaining time; otherwise remove it
and invoke the callback with the stored event. -/
def debFlush (delay now : Int) (key : String) (w : DebouncerWorld) : DebouncerWorld :=
  match pendLookup w.pending key with
  | none => w
  | some pe =>
    if now - pe.lastSeen < delay then
      let pe2 := { pe with fireAt := pe.lastSeen + delay }
      { w with pending := pendSet w.pending key pe2 }
    else
      { w with pending := pendRemove w.pending key, fired := w.fired ++ [(now, pe.event)] }

/-- Deliver every timer expiry scheduled no later than `t`, each at its
scheduled time (the real-time scheduler runs timers in their own tasks). -/
def fireDue (delay t : Int) (w : DebouncerWorld) : DebouncerWorld :=
  (w.pending.filter (fun kv => decide (kv.2.fireAt ≤ t))).foldl
    (fun w kv => debFlush delay kv.2.fireAt kv.1 w) w

/-- Replay a time-ordered list of `Add` calls, letting any timer that expires
before an `Add` fire first. -/
def runAdds (delay : Int) : DebouncerWorld → List (Int × FileEvent) → DebouncerWorld
  | w, [] => w
  | w, (t, e) :: rest => runAdds delay (debAdd delay t e (fireDue delay t w)) rest

/-- After the last `Add`, let every still-armed timer fire at its scheduled
time. -/
def fireAll (delay : Int) (w : DebouncerWorld) : DebouncerWorld :=
  w.pending.foldl (fun w kv => debFlush delay kv.2.fireAt kv.1 w) w

/-- A full quiescent cluster: the adds, then quiescence. -/
def runCluster (delay : Int) (adds : List (Int × FileEvent)) : DebouncerWorld :=
  fireAll delay (runAdds delay emptyDebouncer adds)

/-! ## Webhook dispatcher (`watcher.Dispatcher.deliverToWebhook`)

`outcomes n` is the environment's response to attempt `n` (0-based):
`none` is a transport error, `some code` an HTTP status.  The subscriber
map is an association list keyed by URL.  `sleepMs` totals the
`time.Sleep(RetryDelay)` waits taken before retries. -/

structure Subscriber where
  url : String
  registeredAt : Int
  eventTypes : List String
  lastDelivery : Int
  failCount : Int
deriving DecidableEq, Repr

abbrev SubMap := List (String × Subscriber)

def subsLookup : SubMap → String → Option Subscriber
  | [], _ => none
  | (k, v) :: r, q => if k = q then some v else subsLookup r q

def subsUpdate : SubMap → String → (Subscriber → Subscriber) → SubMap
  | [], _, _ => []
  | (a, b) :: rest, k, f =>
    if a = k then (a, f b) :: subsUpdate rest k f else (a, b) :: subsUpdate rest k f

def subsRemove : SubMap → String → SubMap
  | [], _ => []
  | (k, v) :: r, q => if k = q then subsRemove r q else (k, v) :: subsRemove r q

/-- `MaxRetries` (total attempts). -/
def maxRetries : Nat := 3

/-- `RetryDelay` in milliseconds (5 s). -/
def retryDelayMs : Nat := 5000

/-- `MaxFailCount`. -/
def maxFailCount : Int := 10

/-- 2xx test (`resp.StatusCode >= 200 && resp.StatusCode < 300`); a transport
error is never 2xx. -/
def is2xx (o : Option Int) : Bool :=
  match o with
  | some code => decide (200 ≤ code ∧ code < 300)
  | none => false

structure DeliverResult where
  subs : SubMap
  attemptsMade : Nat
  sleepMs : Nat
deriving DecidableEq

/-- The retry loop of `deliverToWebhook`, starting at `attempt`.  On a 2xx
response the subscriber (if still present) gets `lastDelivery = now` and
`failCount = 0` and the loop returns; otherwise it sleeps `RetryDelay` and
retries, up to `maxRetries` total attempts; on exhaustion the subscriber's
`failCount` is incremented and the subscriber is removed once it reaches
`maxFailCount`. -/
def deliverLoop (outcomes : Nat → Option Int) (now : Int) (url : String)
    (subs : SubMap) (attempt : Nat) : DeliverResult :=
  if h : attempt < maxRetries then
    if is2xx (outcomes attempt) then
      ⟨subsUpdate subs url (fun s => { s with lastDelivery := now, failCount := 0 }),
       attempt + 1, attempt * retryDelayMs⟩
    else deliverLoop outcomes now url subs (attempt + 1)
  else
    let subs2 :=
      match subsLookup subs url with
      | some s =>
        let s2 := { s with failCount := s.failCount + 1 }
        let updated := subsUpdate subs url (fun _ => s2)
        if maxFailCount ≤ s2.failCount then subsRemove updated url else updated
      | none => subs
    ⟨subs2, maxRetries, (maxRetries - 1) * retryDelayMs⟩
termination_by maxRetries - attempt
decreasing_by simp [maxRetries] at h ⊢; omega

/-- `Dispatcher.deliverToWebhook` (the marshalling of the event body never
fails for these events, so the early-return branch is not modelled). -/
def deliverToWebhook (outcomes : Nat → Option Int) (now : Int) (url : String)
    (subs : SubMap) : DeliverResult :=
  deliverLoop outcomes now url subs 0

/-- A throwaway concrete event used by witnesses. -/
def evW : FileEvent := ⟨FileEventType.delete, "w.txt", 0, 0, "", ""⟩

/-- A concrete event with a given path and timestamp, used by witnesses. -/
def evAt (p : String) (t : Int) : FileEvent := ⟨FileEventType.add, p, 1, t, "", ""⟩

/-- A concrete ring buffer used by the C10 witness. -/
def demoBuf : List FileEvent := [evAt "a" 1, evAt "b" 5, evAt "c" 9]

/-- Concrete election configuration for counterexamples and witnesses. -/
def cfgC : ElectionConfig := ⟨"/locks/kv-leader.info".data⟩

/-- Previously known leader coordinates. -/
def infoOldC : LeaderLockInfo :=
  ⟨"host1".data, "redis://10.0.0.1:6379".data, "http://10.0.0.1:8180".data, [], 100, 41⟩

/-- Freshly published leader coordinates with a different store URL. -/
def infoNewC : LeaderLockInfo :=
  ⟨"host2".data, "redis://10.0.0.2:6379".data, "http://10.0.0.2:8180".data, [], 200, 42⟩

/-- A follower whose on-disk leader file carries `infoNewC` while the stored
coordinates are `infoOldC`. -/
def followerWorldC : ElectionWorld :=
  { fs := [(cfgC.infoFilePath, marshalLeaderInfo infoNewC)],
    role := Role.follower, leaderInfo := some infoOldC, redisRunning := false,
    connectCalls := [], redisStartCalls := 0, redisWaitReadyCalls := 0,
    leaderCallbackCalls := 0, followerCallbackCalls := [], readInfoCalls := 0 }

/-- A fresh world with an empty shared volume. -/
def emptyFsWorldC : ElectionWorld :=
  { fs := [], role := Role.unknown, leaderInfo := none, redisRunning := false,
    connectCalls := [], redisStartCalls := 0, redisWaitReadyCalls := 0,
    leaderCallbackCalls := 0, followerCallbackCalls := [], readInfoCalls := 0 }

/-- A leader whose supervised store has just died. -/
def leaderWorldC : ElectionWorld :=
  { fs := [], role := Role.leader, leaderInfo := some infoOldC, redisRunning := false,
    connectCalls := [], redisStartCalls := 0, redisWaitReadyCalls := 0,
    leaderCallbackCalls := 0, followerCallbackCalls := [], readInfoCalls := 0 }

/-- A concrete subscriber used by the C5 witness. -/
def subC : Subscriber := ⟨"http://peer:9/hook", 0, [], 0, 4⟩

/-- Concrete attempt outcomes for the C5 witness: a transport error, then a
204 response. -/
def outcomesW : Nat → Option Int := fun n => if n = 0 then none else some 204

/- ------------------------------------------------------------------ -/
/- Theorems                                                            -/
/- ------------------------------------------------------------------ -/

/-! ## Ring buffer (C6), recent-event query (C10), initial scan (C9) -/

theorem getRecentEventsLoop_spec (sinceMS limit : Int) (buf : List FileEvent) :
    ∀ acc : List FileEvent, 0 < limit → (acc.length : Int) < limit →
      getRecentEventsLoop sinceMS limit buf acc
        = acc ++ (buf.filter (fun e => decide (sinceMS < e.timestamp))).take
            (limit.toNat - acc.length) := by
  induction buf with
  | nil => intro acc _ _; simp [getRecentEventsLoop]
  | cons e rest ih =>
    intro acc hl ha
    by_cases hts : sinceMS < e.timestamp
    · by_cases hbreak : limit ≤ ((acc ++ [e]).length : Int)
      · have hlim : limit.toNat - acc.length = 1 := by
          simp only [List.length_append, List.length_cons, List.length_nil] at hbreak
          omega
        rw [getRecentEventsLoop, if_pos hts, if_pos ⟨hl, hbreak⟩,
          List.filter_cons_of_pos (by simpa using hts), hlim, List.take_succ_cons,
          List.take_zero]
      · have ha2 : ((acc ++ [e]).length : Int) < limit := by omega
        have hlim : limit.toNat - acc.length = (limit.toNat - (acc ++ [e]).length) + 1 := by
          simp only [List.length_append, List.length_cons, List.length_nil] at ha2 ⊢
          omega
        rw [getRecentEventsLoop, if_pos hts, if_neg (fun hc => hbreak hc.2),
          ih (acc ++ [e]) hl ha2, List.filter_cons_of_pos (by simpa using hts), hlim,
          List.take_succ_cons, List.append_assoc, List.singleton_append]
    · rw [getRecentEventsLoop, if_neg hts, ih acc hl ha,
        List.filter_cons_of_neg (by simpa using hts)]

theorem mem_getRecentEventsLoop (sinceMS limit : Int) (buf : List FileEvent) :
    ∀ acc e, e ∈ getRecentEventsLoop sinceMS limit buf acc → e ∈ acc ∨ e ∈ buf := by
  induction buf with
  | nil => intro acc e h; simp [getRecentEventsLoop] at h; exact Or.inl h
  | cons b rest ih =>
    intro acc e h
    rw [getRecentEventsLoop] at h
    by_cases hts : sinceMS < b.timestamp
    · rw [if_pos hts] at h
      by_cases hbreak : 0 < limit ∧ limit ≤ ((acc ++ [b]).length : Int)
      · rw [if_pos hbreak] at h
        rcases List.mem_append.mp h with h | h
        · exact Or.inl h
        · exact Or.inr (by simp at h; simp [h])
      · rw [if_neg hbreak] at h
        rcases ih (acc ++ [b]) e h with h | h
        · rcases List.mem_append.mp h with h | h
          · exact Or.inl h
          · exact Or.inr (by simp at h; simp [h])
        · exact Or.inr (List.mem_cons_of_mem _ h)
    · rw [if_neg hts] at h
      rcases ih acc e h with h | h
      · exact Or.inl h
      · exact Or.inr (List.mem_cons_of_mem _ h)

/-- C10: for every `sinceMS` cursor and positive `limit`, `GetRecentEvents`
returns the first (oldest) events in buffer order whose timestamp is strictly
greater than `sinceMS`, truncated to the first `limit` of them — so when more
than `limit` events qualify the newest qualifying ones are omitted, and
events with timestamp exactly `sinceMS` are excluded. -/
theorem claimC10_recent_events (buf : List FileEvent) (sinceMS limit : Int)
    (h : 0 < limit) :
    getRecentEvents buf sinceMS limit
      = (buf.filter (fun e => decide (sinceMS < e.timestamp))).take limit.toNat ∧
    ∀ e ∈ getRecentEvents buf sinceMS limit, sinceMS < e.timestamp := by
  have h0 := getRecentEventsLoop_spec sinceMS limit buf [] h (by simpa using h)
  constructor
  · simpa [getRecentEvents] using h0
  · intro e he
    rw [getRecentEvents] at he
    rw [h0] at he
    simp only [List.nil_append] at he
    have := List.mem_filter.mp (List.take_subset _ _ he)
    simpa using this.2

/-- Witness for C10 at a concrete buffer, cursor 4 and limit 1. -/
theorem claimC10_recent_events_witness :
    getRecentEvents demoBuf 4 1
        = (demoBuf.filter (fun e => decide ((4 : Int) < e.timestamp))).take (1 : Int).toNat ∧
      ∀ e ∈ getRecentEvents demoBuf 4 1, (4 : Int) < e.timestamp :=
  claimC10_recent_events demoBuf 4 1 (by decide)

/-- C6: appending a debounced event trims the ring to exactly its newest
5000 entries when the append makes it exceed 10000 entries, and leaves every
existing entry in place otherwise. -/
theorem claimC6_ring_trim (contents : FileBytesMap) (filesPath : String)
    (s : WatcherState) (event : FileEvent) :
    (s.eventBuffer.length + 1 ≤ 10000 →
      (handleDebouncedEvent contents filesPath s event).eventBuffer
        = s.eventBuffer ++ [enrichEvent contents filesPath event]) ∧
    (10000 < s.eventBuffer.length + 1 →
      (handleDebouncedEvent contents filesPath s event).eventBuffer
          = (s.eventBuffer ++ [enrichEvent contents filesPath event]).drop
              (s.eventBuffer.length + 1 - 5000) ∧
        (handleDebouncedEvent contents filesPath s event).eventBuffer.length = 5000 ∧
        (handleDebouncedEvent contents filesPath s event).eventBuffer
          <:+ s.eventBuffer ++ [enrichEvent contents filesPath event]) := by
  constructor
  · intro hle
    simp only [handleDebouncedEvent]
    rw [if_neg (by simp only [List.length_append, List.length_cons, List.length_nil]; omega)]
  · intro hgt
    simp only [handleDebouncedEvent]
    rw [if_pos (by simp only [List.length_append, List.length_cons, List.length_nil]; omega)]
    refine ⟨by simp, ?_, ?_⟩
    · simp only [List.length_drop, List.length_append, List.length_cons, List.length_nil]
      omega
    · exact List.drop_suffix _ _

/-- Witness for C6: a full ring of 10000 entries is trimmed to 5000. -/
theorem claimC6_ring_trim_witness :
    (handleDebouncedEvent [] "f" ⟨List.replicate 10000 evW, []⟩ evW).eventBuffer.length
      = 5000 :=
  ((claimC6_ring_trim [] "f" ⟨List.replicate 10000 evW, []⟩ evW).2
    (by show (10000 : Nat) < (List.replicate 10000 evW).length + 1
        rw [List.length_replicate]
        omega)).2.1

theorem scanEventsOf_cons_skip (contents : FileBytesMap) (filesPath : String) (now : Int)
    (en : ScanEntry) (rest : List ScanEntry)
    (h : en.isDir = true ∨ isHiddenName en.path = true) :
    scanEventsOf contents filesPath now (en :: rest)
      = scanEventsOf contents filesPath now rest := by
  rcases h with h | h <;> simp [scanEventsOf, List.filter_cons, h]

theorem scanEventsOf_cons_file (contents : FileBytesMap) (filesPath : String) (now : Int)
    (en : ScanEntry) (rest : List ScanEntry)
    (hd : en.isDir = false) (hh : isHiddenName en.path = false) :
    scanEventsOf contents filesPath now (en :: rest)
      = mkScanEvent contents filesPath now en :: scanEventsOf contents filesPath now rest := by
  simp [scanEventsOf, List.filter_cons, hd, hh]

theorem scanDirectory_state (contents : FileBytesMap) (filesPath : String) (now : Int) :
    ∀ (entries : List ScanEntry) (s : WatcherState),
      (scanDirectory contents filesPath now s entries).1.eventBuffer = s.eventBuffer ∧
      (scanDirectory contents filesPath now s entries).1.dispatched
        = s.dispatched ++ scanEventsOf contents filesPath now entries := by
  intro entries
  induction entries with
  | nil => intro s; simp [scanDirectory, scanEventsOf]
  | cons en rest ih =>
    intro s
    by_cases hd : en.isDir
    · rw [scanEventsOf_cons_skip contents filesPath now en rest (Or.inl hd)]
      simpa [scanDirectory, hd] using ih s
    · by_cases hh : isHiddenName en.path
      · rw [scanEventsOf_cons_skip contents filesPath now en rest (Or.inr hh)]
        simpa [scanDirectory, hd, hh] using ih s
      · have hd' : en.isDir = false := by simpa using hd
        have hh' : isHiddenName en.path = false := by simpa using hh
        rw [scanEventsOf_cons_file contents filesPath now en rest hd' hh']
        have h2 := ih { s with dispatched := s.dispatched ++ [mkScanEvent contents filesPath now en] }
        constructor
        · simp only [scanDirectory, hd', hh']
          simpa using h2.1
        · simp only [scanDirectory, hd', hh']
          simp only [Bool.false_eq_true, if_false]
          rw [h2.2]
          simp

/-- C9: scan-produced add events are handed directly to the dispatcher and
never enter the event ring, so they are absent from every
`GetRecentEvents` result (unless already present in the ring beforehand). -/
theorem claimC9_scan_bypasses_ring (contents : FileBytesMap) (filesPath : String)
    (now : Int) (entries : List ScanEntry) (s : WatcherState) :
    (scanDirectory contents filesPath now s entries).1.eventBuffer = s.eventBuffer ∧
    (scanDirectory contents filesPath now s entries).1.dispatched
      = s.dispatched ++ scanEventsOf contents filesPath now entries ∧
    ∀ ev, ev ∉ s.eventBuffer → ∀ sinceMS limit,
      ev ∉ getRecentEvents (scanDirectory contents filesPath now s entries).1.eventBuffer
            sinceMS limit := by
  obtain ⟨h1, h2⟩ := scanDirectory_state contents filesPath now entries s
  refine ⟨h1, h2, ?_⟩
  intro ev hev sinceMS limit hmem
  rw [h1, getRecentEvents] at hmem
  rcases mem_getRecentEventsLoop sinceMS limit s.eventBuffer [] ev hmem with h | h
  · simp at h
  · exact hev h

/-- Witness for C9: the event scanned from a one-file tree does not appear
in a later poll of the (empty) ring. -/
theorem claimC9_scan_bypasses_ring_witness :
    evW ∉ getRecentEvents
        (scanDirectory [] "root" 7 ⟨[], []⟩ [⟨"root/a.txt", false, 3⟩]).1.eventBuffer 0 10 :=
  (claimC9_scan_bypasses_ring [] "root" 7 [⟨"root/a.txt", false, 3⟩] ⟨[], []⟩).2.2
    evW (by simp) 0 10

/-! ## Election: publication helpers and the health tick (C1, C2, C3) -/

theorem fsLookup_fsWrite_self (fs : FsMap) (p c : List Char) :
    fsLookup (fsWrite fs p c) p = some c := by
  simp [fsWrite, fsLookup]

theorem writeLeaderInfoFs_publishes (cfg : ElectionConfig) (fs : FsMap)
    (info : LeaderLockInfo) :
    ∃ fs2, writeLeaderInfoFs cfg fs info = some fs2 ∧
      fsLookup fs2 cfg.infoFilePath = some (marshalLeaderInfo info) := by
  simp only [writeLeaderInfoFs, fsRename, fsLookup_fsWrite_self, Option.map_some']
  exact ⟨_, rfl, fsLookup_fsWrite_self _ _ _⟩

/-- The shape of a follower health tick, as a function of the one read. -/
theorem performHealthCheck_follower (cfg : ElectionConfig) (startOk : Bool) (now : Int)
    (w : ElectionWorld) (hrole : w.role = Role.follower) :
    performHealthCheck cfg startOk now w
      = match readLeaderInfoFs cfg w.fs with
        | .error _ => { w with readInfoCalls := w.readInfoCalls + 1 }
        | .ok none => { w with readInfoCalls := w.readInfoCalls + 1 }
        | .ok (some info) =>
            { w with readInfoCalls := w.readInfoCalls + 1, leaderInfo := some info } := by
  simp only [performHealthCheck, hrole]

/-- C1 (amended): on a follower health tick the election rereads the leader
coordinates and, when the file parses, replaces the stored copy; it makes no
`storage.connect` call even when the store URL changed; when the file is
missing it changes nothing else, remains follower and the next tick simply
rereads. -/
theorem claimC1_follower_tick (cfg : ElectionConfig) (startOk : Bool) (now : Int)
    (w : ElectionWorld) (hrole : w.role = Role.follower) :
    (performHealthCheck cfg startOk now w).role = Role.follower ∧
    (performHealthCheck cfg startOk now w).connectCalls = w.connectCalls ∧
    (performHealthCheck cfg startOk now w).readInfoCalls = w.readInfoCalls + 1 ∧
    (readLeaderInfoFs cfg w.fs = Except.ok none →
      performHealthCheck cfg startOk now w
        = { w with readInfoCalls := w.readInfoCalls + 1 }) ∧
    (∀ info, readLeaderInfoFs cfg w.fs = Except.ok (some info) →
      (performHealthCheck cfg startOk now w).leaderInfo = some info) := by
  rw [performHealthCheck_follower cfg startOk now w hrole]
  rcases hE : readLeaderInfoFs cfg w.fs with e | v
  · exact ⟨hrole, rfl, rfl, fun h => Except.noConfusion h,
      fun info h => Except.noConfusion h⟩
  · rcases v with _ | info
    · exact ⟨hrole, rfl, rfl, fun _ => rfl,
        fun info h => by simp at h⟩
    · refine ⟨hrole, rfl, rfl, fun h => by simp at h, ?_⟩
      intro info2 h
      simp only [Except.ok.injEq, Option.some.injEq] at h
      rw [h]

/-- Witness for C1 at a concrete follower world whose file carries new
coordinates: the connect trace is untouched by the tick. -/
theorem claimC1_follower_tick_witness :
    (performHealthCheck cfgC true 300 followerWorldC).connectCalls
      = followerWorldC.connectCalls :=
  (claimC1_follower_tick cfgC true 300 followerWorldC rfl).2.1

/-- C1 counterexample: a concrete follower tick where the published store URL
differs from the stored one; the coordinates are replaced but no
`storage.connect` call is made — the claim says the election calls
`storage.connect` with the new URL. -/
theorem claimC1_counterexample :
    infoNewC.api ≠ infoOldC.api ∧
    followerWorldC.leaderInfo = some infoOldC ∧
    (performHealthCheck cfgC true 300 followerWorldC).leaderInfo = some infoNewC ∧
    (performHealthCheck cfgC true 300 followerWorldC).connectCalls = [] := by
  exact ⟨by decide, rfl, rfl, rfl⟩

/-- C2 (amended): `transitionToFollower` reads the coordinates exactly once;
when the file is absent it does not retry — it completes the transition with
no coordinates, no storage connect and no callback (later health ticks
reread); when the file is present and parses, it connects the storage client
to the leader's store URL and fires `onBecomeFollower` with the coordinates. -/
theorem claimC2_transition_follower (cfg : ElectionConfig) (w : ElectionWorld) :
    (fsLookup w.fs cfg.infoFilePath = none →
      transitionToFollower cfg w
        = Except.ok { w with role := Role.follower, leaderInfo := none,
                             readInfoCalls := w.readInfoCalls + 1 }) ∧
    (∀ data info, fsLookup w.fs cfg.infoFilePath = some data →
      unmarshalLeaderInfo data = some info →
      transitionToFollower cfg w
        = Except.ok { w with role := Role.follower, leaderInfo := some info,
                             readInfoCalls := w.readInfoCalls + 1,
                             connectCalls := w.connectCalls ++ [info.api],
                             followerCallbackCalls := w.followerCallbackCalls ++ [info] }) := by
  constructor
  · intro h
    simp [transitionToFollower, readLeaderInfoFs, h]
  · intro data info h1 h2
    simp [transitionToFollower, readLeaderInfoFs, h1, h2]

/-- Witness for C2: with the leader file present, the transition connects to
the published store URL and fires the follower callback with it. -/
theorem claimC2_transition_follower_witness :
    transitionToFollower cfgC followerWorldC
      = Except.ok { followerWorldC with
                    role := Role.follower, leaderInfo := some infoNewC,
                    readInfoCalls := followerWorldC.readInfoCalls + 1,
                    connectCalls := followerWorldC.connectCalls ++ [infoNewC.api],
                    followerCallbackCalls := followerWorldC.followerCallbackCalls ++ [infoNewC] } :=
  (claimC2_transition_follower cfgC followerWorldC).2 (marshalLeaderInfo infoNewC) infoNewC
    rfl (by rfl)

/-- C2 counterexample: on an empty shared volume the follower transition does
not retry the read after a backoff — it performs exactly one read and
completes immediately with no coordinates, no connect and no callback; the
claim says an absent file is retried until coordinates are obtained. -/
theorem claimC2_counterexample :
    transitionToFollower cfgC emptyFsWorldC
      = Except.ok { emptyFsWorldC with role := Role.follower, readInfoCalls := 1 } := by
  rfl

/-- C3 (amended): on a leader health tick the election refreshes the
timestamp in the coordinates and republishes the file; if the supervised
store is not running it invokes `start()`, but it does not wait for store
readiness again after the restart (no `WaitForReady` call is issued). -/
theorem claimC3_leader_tick (cfg : ElectionConfig) (startOk : Bool) (now : Int)
    (w : ElectionWorld) (info : LeaderLockInfo)
    (hrole : w.role = Role.leader) (hinfo : w.leaderInfo = some info) :
    (performHealthCheck cfg startOk now w).leaderInfo
      = some ({ info with timestamp := now }) ∧
    fsLookup (performHealthCheck cfg startOk now w).fs cfg.infoFilePath
      = some (marshalLeaderInfo ({ info with timestamp := now })) ∧
    (performHealthCheck cfg startOk now w).redisWaitReadyCalls = w.redisWaitReadyCalls ∧
    (w.redisRunning = false →
      (performHealthCheck cfg startOk now w).redisStartCalls = w.redisStartCalls + 1 ∧
      (startOk = true → (performHealthCheck cfg startOk now w).redisRunning = true)) ∧
    (w.redisRunning = true →
      (performHealthCheck cfg startOk now w).redisStartCalls = w.redisStartCalls) := by
  obtain ⟨fs2, hw, hl⟩ := writeLeaderInfoFs_publishes cfg w.fs ({ info with timestamp := now })
  have hup : updateLeaderTimestamp cfg now w
      = { w with leaderInfo := some ({ info with timestamp := now }), fs := fs2 } := by
    simp only [updateLeaderTimestamp, hinfo]
    rw [hw]
  have hph : performHealthCheck cfg startOk now w
      = cond w.redisRunning
          ({ w with leaderInfo := some ({ info with timestamp := now }), fs := fs2 })
          (cond startOk
            ({ w with leaderInfo := some ({ info with timestamp := now }), fs := fs2,
                      redisStartCalls := w.redisStartCalls + 1, redisRunning := true })
            ({ w with leaderInfo := some ({ info with timestamp := now }), fs := fs2,
                      redisStartCalls := w.redisStartCalls + 1 })) := by
    simp only [performHealthCheck, hrole, hup]
    rcases w.redisRunning with _ | _
    · rcases startOk with _ | _
      · rfl
      · rfl
    · rfl
  rw [hph]
  rcases hr : w.redisRunning with _ | _
  · rcases hs : startOk with _ | _
    · exact ⟨rfl, hl, rfl, fun _ => ⟨rfl, fun h => Bool.noConfusion h⟩,
        fun h => Bool.noConfusion h⟩
    · exact ⟨rfl, hl, rfl, fun _ => ⟨rfl, fun _ => rfl⟩, fun h => Bool.noConfusion h⟩
  · exact ⟨rfl, hl, rfl, fun h => Bool.noConfusion h, fun _ => rfl⟩

/-- Witness for C3 at a concrete leader world: the tick republishes the
refreshed coordinates. -/
theorem claimC3_leader_tick_witness :
    fsLookup (performHealthCheck cfgC true 500 leaderWorldC).fs cfgC.infoFilePath
      = some (marshalLeaderInfo ({ infoOldC with timestamp := 500 })) :=
  (claimC3_leader_tick cfgC true 500 leaderWorldC infoOldC rfl rfl).2.1

/-- C3 counterexample: at a concrete leader tick whose store is down, the
restart is invoked and succeeds, yet no readiness wait is issued
(`redisWaitReadyCalls` stays 0) — the claim says a successful restart is
followed by waiting again for store readiness.  `transitionToLeader` shows
the counter does record readiness waits. -/
theorem claimC3_counterexample :
    (performHealthCheck cfgC true 500 leaderWorldC).redisStartCalls = 1 ∧
    (performHealthCheck cfgC true 500 leaderWorldC).redisRunning = true ∧
    (performHealthCheck cfgC true 500 leaderWorldC).redisWaitReadyCalls = 0 ∧
    (transitionToLeader cfgC true true infoOldC emptyFsWorldC).map
        (fun w => w.redisWaitReadyCalls) = Except.ok 1 := by
  exact ⟨rfl, rfl, rfl, rfl⟩

/-! ## Webhook delivery (C5) -/

theorem subsLookup_subsUpdate (l : SubMap) (k : String) (f : Subscriber → Subscriber) :
    subsLookup (subsUpdate l k f) k = (subsLookup l k).map f := by
  induction l with
  | nil => rfl
  | cons kv rest ih =>
    rcases kv with ⟨a, b⟩
    by_cases hk : a = k
    · subst hk
      simp [subsUpdate, subsLookup]
    · simp [subsUpdate, subsLookup, hk, ih]

theorem subsLookup_subsRemove (l : SubMap) (k : String) :
    subsLookup (subsRemove l k) k = none := by
  induction l with
  | nil => rfl
  | cons kv rest ih =>
    rcases kv with ⟨a, b⟩
    by_cases hk : a = k
    · subst hk
      simp [subsRemove, ih]
    · simp [subsRemove, subsLookup, hk, ih]

/-- C5: one webhook delivery makes at most 3 total attempts, waiting 5 s
before each retry; a 2xx response (at any attempt) sets `lastDelivery` and
resets `failCount` to 0; when all attempts fail, `failCount` is incremented
and the subscriber is evicted exactly when the new count reaches 10. -/
theorem claimC5_webhook_retry (outcomes : Nat → Option Int) (now : Int) (url : String)
    (subs : SubMap) (sub : Subscriber) (h : subsLookup subs url = some sub) :
    (deliverToWebhook outcomes now url subs).attemptsMade ≤ 3 ∧
    (deliverToWebhook outcomes now url subs).sleepMs
      = ((deliverToWebhook outcomes now url subs).attemptsMade - 1) * 5000 ∧
    ((∃ i, i < 3 ∧ is2xx (outcomes i) = true) →
      subsLookup (deliverToWebhook outcomes now url subs).subs url
        = some ({ sub with lastDelivery := now, failCount := 0 })) ∧
    ((∀ i, i < 3 → is2xx (outcomes i) = false) →
      (sub.failCount + 1 < 10 →
        subsLookup (deliverToWebhook outcomes now url subs).subs url
          = some ({ sub with failCount := sub.failCount + 1 })) ∧
      (10 ≤ sub.failCount + 1 →
        subsLookup (deliverToWebhook outcomes now url subs).subs url = none)) := by
  by_cases h0 : is2xx (outcomes 0) = true
  · have hres : deliverToWebhook outcomes now url subs
        = ⟨subsUpdate subs url (fun s => { s with lastDelivery := now, failCount := 0 }),
           1, 0⟩ := by
      rw [deliverToWebhook, deliverLoop, dif_pos (by simp [maxRetries]), if_pos h0]
      rfl
    rw [hres]
    dsimp only
    refine ⟨by omega, rfl, fun _ => ?_, fun hall => ?_⟩
    · rw [subsLookup_subsUpdate, h]
      rfl
    · have hx := hall 0 (by omega)
      rw [h0] at hx
      exact Bool.noConfusion hx
  · by_cases h1 : is2xx (outcomes 1) = true
    · have hres : deliverToWebhook outcomes now url subs
          = ⟨subsUpdate subs url (fun s => { s with lastDelivery := now, failCount := 0 }),
             2, 5000⟩ := by
        rw [deliverToWebhook, deliverLoop, dif_pos (by simp [maxRetries]),
          if_neg h0, deliverLoop, dif_pos (by simp [maxRetries]), if_pos h1]
        rfl
      rw [hres]
      dsimp only
      refine ⟨by omega, rfl, fun _ => ?_, fun hall => ?_⟩
      · rw [subsLookup_subsUpdate, h]
        rfl
      · have hx := hall 1 (by omega)
        rw [h1] at hx
        exact Bool.noConfusion hx
    · by_cases h2 : is2xx (outcomes 2) = true
      · have hres : deliverToWebhook outcomes now url subs
            = ⟨subsUpdate subs url (fun s => { s with lastDelivery := now, failCount := 0 }),
               3, 10000⟩ := by
          rw [deliverToWebhook, deliverLoop, dif_pos (by simp [maxRetries]),
            if_neg h0, deliverLoop, dif_pos (by simp [maxRetries]), if_neg h1,
            deliverLoop, dif_pos (by simp [maxRetries]), if_pos h2]
          rfl
        rw [hres]
        dsimp only
        refine ⟨by omega, rfl, fun _ => ?_, fun hall => ?_⟩
        · rw [subsLookup_subsUpdate, h]
          rfl
        · have hx := hall 2 (by omega)
          rw [h2] at hx
          exact Bool.noConfusion hx
      · have hres : deliverToWebhook outcomes now url subs
            = ⟨if (10 : Int) ≤ sub.failCount + 1 then
                 subsRemove
                   (subsUpdate subs url (fun _ => { sub with failCount := sub.failCount + 1 }))
                   url
               else subsUpdate subs url (fun _ => { sub with failCount := sub.failCount + 1 }),
               3, 10000⟩ := by
          rw [deliverToWebhook, deliverLoop, dif_pos (by simp [maxRetries]),
            if_neg h0, deliverLoop, dif_pos (by simp [maxRetries]), if_neg h1,
            deliverLoop, dif_pos (by simp [maxRetries]), if_neg h2,
            deliverLoop, dif_neg (by simp [maxRetries]), h]
          rfl
        rw [hres]
        dsimp only
        refine ⟨by omega, rfl, ?_, fun _ => ⟨?_, ?_⟩⟩
        · rintro ⟨i, hi, htrue⟩
          interval_cases i
          · exact absurd htrue h0
          · exact absurd htrue h1
          · exact absurd htrue h2
        · intro hlt
          rw [if_neg (by omega), subsLookup_subsUpdate, h]
          rfl
        · intro hge
          rw [if_pos hge, subsLookup_subsRemove]

/-- Witness for C5: a transport error followed by a 204 leads to a reset
`failCount` and a fresh `lastDelivery` for the registered subscriber. -/
theorem claimC5_webhook_retry_witness :
    subsLookup (deliverToWebhook outcomesW 77 "http://peer:9/hook"
        [("http://peer:9/hook", subC)]).subs "http://peer:9/hook"
      = some ({ subC with lastDelivery := 77, failCount := 0 }) :=
  (claimC5_webhook_retry outcomesW 77 "http://peer:9/hook"
      [("http://peer:9/hook", subC)] subC rfl).2.2.1 ⟨1, by omega, by decide⟩

/-! ## Debouncer coalescing (C4) -/

theorem runAdds_single (delay : Int) (p : String) :
    ∀ (adds : List (Int × FileEvent)) (pe : PendingEventM)
      (fired : List (Int × FileEvent)),
      pe.fireAt = pe.lastSeen + delay →
      (∀ a ∈ adds, a.2.path = p) →
      List.Chain' (fun a b => a.1 ≤ b.1 ∧ b.1 - a.1 < delay) ((pe.lastSeen, pe.event) :: adds) →
      runAdds delay ⟨[(p, pe)], fired, false⟩ adds
        = ⟨[(p, ⟨(adds.getLastD (pe.lastSeen, pe.event)).2, pe.firstSeen,
               (adds.getLastD (pe.lastSeen, pe.event)).1,
               (adds.getLastD (pe.lastSeen, pe.event)).1 + delay⟩)], fired, false⟩ := by
  intro adds
  induction adds with
  | nil =>
    intro pe fired hfire _ _
    rcases pe with ⟨ev, fs, ls, fa⟩
    simp only [List.getLastD_nil]
    simp only [] at hfire
    rw [runAdds, hfire]
  | cons a rest ih =>
    intro pe fired hfire hpath hchain
    rcases a with ⟨t, e⟩
    have hrel : pe.lastSeen ≤ t ∧ t - pe.lastSeen < delay :=
      (List.chain'_cons.mp hchain).1
    have hnofire : fireDue delay t ⟨[(p, pe)], fired, false⟩ = ⟨[(p, pe)], fired, false⟩ := by
      rw [fireDue]
      have hd : decide (pe.fireAt ≤ t) = false := by
        rw [hfire]
        simp only [decide_eq_false_iff_not]
        omega
      simp [hd]
    have hp : e.path = p := hpath (t, e) (by simp)
    have hadd : debAdd delay t e ⟨[(p, pe)], fired, false⟩
        = ⟨[(p, ⟨e, pe.firstSeen, t, t + delay⟩)], fired, false⟩ := by
      rw [debAdd]
      simp [pendLookup, pendSet, hp]
    rw [runAdds, hnofire, hadd,
      ih ⟨e, pe.firstSeen, t, t + delay⟩ fired rfl
        (fun a ha => hpath a (List.mem_cons_of_mem _ ha))
        ((List.chain'_cons.mp hchain).2), List.getLastD_cons]

theorem fireAll_single (delay : Int) (p : String) (pe : PendingEventM)
    (fired : List (Int × FileEvent)) (hfire : pe.fireAt = pe.lastSeen + delay) :
    fireAll delay ⟨[(p, pe)], fired, false⟩
      = ⟨[], fired ++ [(pe.fireAt, pe.event)], false⟩ := by
  have hcond : ¬(pe.fireAt - pe.lastSeen < delay) := by
    rw [hfire]
    omega
  rw [fireAll]
  simp [debFlush, pendLookup, hcond, pendRemove]

theorem chain_le_getLastD (delay : Int) :
    ∀ (rest : List (Int × FileEvent)) (a0 : Int × FileEvent),
      List.Chain' (fun a b => a.1 ≤ b.1 ∧ b.1 - a.1 < delay) (a0 :: rest) →
      ∀ a ∈ a0 :: rest, a.1 ≤ (rest.getLastD a0).1 := by
  intro rest
  induction rest with
  | nil =>
    intro a0 _ a ha
    simp only [List.mem_singleton] at ha
    simp [ha]
  | cons b t ih =>
    intro a0 hchain a ha
    rw [List.getLastD_cons]
    rcases List.mem_cons.mp ha with rfl | ha2
    · calc a.1 ≤ b.1 := (List.chain'_cons.mp hchain).1.1
        _ ≤ (t.getLastD b).1 := ih b (List.chain'_cons.mp hchain).2 b (by simp)
    · exact ih b (List.chain'_cons.mp hchain).2 a ha2

/-- C4: for every nonempty same-path sequence of `Add` calls whose
inter-event gaps are all smaller than the quiet window, exactly one callback
fires for the cluster; it carries the payload of the most recently added
event and fires at the last add time plus the quiet window — i.e. only after
the path has been idle for the full window. -/
theorem claimC4_debounce_coalesces (delay : Int) (p : String)
    (a0 : Int × FileEvent) (rest : List (Int × FileEvent))
    (hpath : ∀ a ∈ a0 :: rest, a.2.path = p)
    (hchain : List.Chain' (fun a b => a.1 ≤ b.1 ∧ b.1 - a.1 < delay) (a0 :: rest)) :
    (runCluster delay (a0 :: rest)).fired
      = [((rest.getLastD a0).1 + delay, (rest.getLastD a0).2)] ∧
    ∀ a ∈ a0 :: rest, a.1 ≤ (rest.getLastD a0).1 := by
  rcases a0 with ⟨t0, e0⟩
  have hp0 : e0.path = p := hpath (t0, e0) (by simp)
  have hstart : debAdd delay t0 e0 (fireDue delay t0 emptyDebouncer)
      = ⟨[(p, ⟨e0, t0, t0, t0 + delay⟩)], [], false⟩ := by
    have h1 : fireDue delay t0 emptyDebouncer = emptyDebouncer := by
      rw [fireDue]
      simp [emptyDebouncer]
    rw [h1, debAdd]
    simp [emptyDebouncer, pendLookup, hp0]
  have hrun : runAdds delay emptyDebouncer ((t0, e0) :: rest)
      = ⟨[(p, ⟨(rest.getLastD (t0, e0)).2, t0, (rest.getLastD (t0, e0)).1,
             (rest.getLastD (t0, e0)).1 + delay⟩)], [], false⟩ := by
    rw [runAdds, hstart]
    exact runAdds_single delay p rest ⟨e0, t0, t0, t0 + delay⟩ []
      rfl (fun a ha => hpath a (List.mem_cons_of_mem _ ha)) hchain
  constructor
  · rw [runCluster, hrun, fireAll_single delay p _ [] rfl]
    rfl
  · exact chain_le_getLastD delay rest (t0, e0) hchain

/-! ## JSON round trip for the leader coordinates (C8) -/

theorem hexVal_hexDigitLower : ∀ n < 16, hexVal (hexDigitLower n) = some n := by decide

theorem isDigitC_digitChar : ∀ d < 10, isDigitC (digitChar d) = true := by decide

theorem digitChar_val : ∀ d < 10, (digitChar d).toNat - 48 = d := by decide

/-- Parsing a string body made of plain (unescaped) characters. -/
theorem parseStringBody_plain : ∀ (key r : List Char),
    (∀ c ∈ key, c ≠ '"' ∧ c ≠ '\\') →
    parseStringBody (key ++ '"' :: r) = some (key, r) := by
  intro key
  induction key with
  | nil =>
    intro r _
    rw [List.nil_append, parseStringBody.eq_def]
    simp
  | cons c t ih =>
    intro r hc
    obtain ⟨h1, h2⟩ := hc c (by simp)
    rw [List.cons_append, parseStringBody.eq_def]
    simp only [if_neg h1, if_neg h2]
    rw [ih r (fun x hx => hc x (List.mem_cons_of_mem _ hx))]
    rfl

/-- Parsing an escaped string body recovers the original characters. -/
theorem parseStringBody_escape : ∀ (s r : List Char),
    parseStringBody (escapeChars s ++ '"' :: r) = some (s, r) := by
  intro s
  induction s with
  | nil =>
    intro r
    rw [show escapeChars [] = [] from rfl, List.nil_append, parseStringBody.eq_def]
    simp
  | cons c t ih =>
    intro r
    rw [show escapeChars (c :: t) = escChar c ++ escapeChars t from by simp [escapeChars],
      List.append_assoc, escChar]
    by_cases h1 : c = '"'
    · subst h1
      simp only [reduceIte, List.cons_append, List.nil_append]
      rw [parseStringBody.eq_def]
      simp [escDecode, ih]
    · rw [if_neg h1]
      by_cases h2 : c = '\\'
      · subst h2
        simp only [reduceIte, List.cons_append, List.nil_append]
        rw [parseStringBody.eq_def]
        simp [escDecode, ih]
      · rw [if_neg h2]
        by_cases h3 : c = '\n'
        · subst h3
          simp only [reduceIte, List.cons_append, List.nil_append]
          rw [parseStringBody.eq_def]
          simp [escDecode, ih]
        · rw [if_neg h3]
          by_cases h4 : c = '\r'
          · subst h4
            simp only [reduceIte, List.cons_append, List.nil_append]
            rw [parseStringBody.eq_def]
            simp [escDecode, ih]
          · rw [if_neg h4]
            by_cases h5 : c = '\t'
            · subst h5
              simp only [reduceIte, List.cons_append, List.nil_append]
              rw [parseStringBody.eq_def]
              simp [escDecode, ih]
            · rw [if_neg h5]
              by_cases h6 : c = '<' ∨ c = '>' ∨ c = '&' ∨ c.toNat < 32
              · rw [if_pos h6]
                have hlt : c.toNat < 64 := by
                  rcases h6 with h | h | h | h
                  · subst h; decide
                  · subst h; decide
                  · subst h; decide
                  · omega
                simp only [List.cons_append, List.nil_append]
                rw [parseStringBody.eq_def]
                dsimp only
                simp only [reduceIte]
                rw [show hexVal '0' = some 0 from rfl,
                  hexVal_hexDigitLower (c.toNat / 16) (by omega),
                  hexVal_hexDigitLower (c.toNat % 16) (by omega), ih]
                simp only [Option.map_some']
                have harith : ((0 * 16 + 0) * 16 + c.toNat / 16) * 16 + c.toNat % 16
                    = c.toNat := by omega
                rw [harith, Char.ofNat_toNat, if_neg (by decide)]
              · rw [if_neg h6]
                by_cases h7 : c.toNat = 0x2028 ∨ c.toNat = 0x2029
                · rw [if_pos h7]
                  have hc : Char.ofNat c.toNat = c := Char.ofNat_toNat c
                  rcases h7 with h | h
                  · rw [h] at hc
                    subst hc
                    simp only [List.cons_append, List.nil_append]
                    rw [parseStringBody.eq_def]
                    dsimp only
                    simp only [reduceIte]
                    rw [show hexVal '2' = some 2 from rfl, show hexVal '0' = some 0 from rfl,
                      show hexVal (hexDigitLower ((Char.ofNat 8232).toNat % 16))
                        = some 8 from by decide, ih]
                    simp only [Option.map_some']
                    rfl
                  · rw [h] at hc
                    subst hc
                    simp only [List.cons_append, List.nil_append]
                    rw [parseStringBody.eq_def]
                    dsimp only
                    simp only [reduceIte]
                    rw [show hexVal '2' = some 2 from rfl, show hexVal '0' = some 0 from rfl,
                      show hexVal (hexDigitLower ((Char.ofNat 8233).toNat % 16))
                        = some 9 from by decide, ih]
                    simp only [Option.map_some']
                    rfl
                · rw [if_neg h7]
                  simp only [List.cons_append, List.nil_append]
                  rw [parseStringBody.eq_def]
                  simp only [if_neg h1, if_neg h2]
                  rw [ih]
                  rfl

theorem takeWhile_digits : ∀ (ds r : List Char), (∀ c ∈ ds, isDigitC c = true) →
    (∀ c, r.head? = some c → isDigitC c = false) →
    (ds ++ r).takeWhile isDigitC = ds ∧ (ds ++ r).dropWhile isDigitC = r := by
  intro ds
  induction ds with
  | nil =>
    intro r _ hr
    simp only [List.nil_append]
    cases r with
    | nil => simp
    | cons c t =>
      have := hr c rfl
      simp [List.takeWhile_cons, List.dropWhile_cons, this]
  | cons d t ih =>
    intro r hds hr
    have hd := hds d (by simp)
    obtain ⟨h1, h2⟩ := ih r (fun c hc => hds c (List.mem_cons_of_mem _ hc)) hr
    simp [List.takeWhile_cons, List.dropWhile_cons, hd, h1, h2]

theorem natCharsAux_digits : ∀ (fuel n : Nat), ∀ c ∈ natCharsAux fuel n, isDigitC c = true := by
  intro fuel
  induction fuel with
  | zero =>
    intro n c hc
    simp [natCharsAux] at hc
  | succ f ih =>
    intro n c hc
    rw [natCharsAux] at hc
    by_cases hn : n = 0
    · simp [hn] at hc
    · rw [if_neg hn] at hc
      rcases List.mem_append.mp hc with h | h
      · exact ih _ c h
      · simp only [List.mem_singleton] at h
        subst h
        exact isDigitC_digitChar _ (Nat.mod_lt _ (by norm_num))

theorem foldl_natCharsAux : ∀ (fuel n acc : Nat), n < 10 ^ fuel →
    (natCharsAux fuel n).foldl (fun a c => 10 * a + (c.toNat - 48)) acc
      = acc * 10 ^ (natCharsAux fuel n).length + n := by
  intro fuel
  induction fuel with
  | zero =>
    intro n acc h
    interval_cases n
    simp [natCharsAux]
  | succ f ih =>
    intro n acc h
    by_cases hn : n = 0
    · simp [natCharsAux, hn]
    · rw [natCharsAux, if_neg hn, List.foldl_append, List.foldl_cons, List.foldl_nil]
      have hdiv : n / 10 < 10 ^ f := by
        rw [pow_succ'] at h
        exact Nat.div_lt_of_lt_mul h
      rw [ih (n / 10) acc hdiv, List.length_append, List.length_cons, List.length_nil,
        digitChar_val (n % 10) (Nat.mod_lt _ (by norm_num))]
      simp only [Nat.zero_add]
      rw [pow_succ]
      generalize hP : (10 : Nat) ^ (natCharsAux f (n / 10)).length = P
      have hmul : acc * (P * 10) = 10 * (acc * P) := by ring
      omega

theorem charsToNat_natChars (n : Nat) : charsToNat (natChars n) = n := by
  by_cases hn : n = 0
  · subst hn
    decide
  · rw [natChars, if_neg hn, charsToNat]
    have hlt : n < 10 ^ (n + 1) := by
      have h1 : n < 10 ^ n := Nat.lt_pow_self (by norm_num) n
      exact lt_of_lt_of_le h1 (Nat.pow_le_pow_right (by norm_num) (by omega))
    rw [foldl_natCharsAux (n + 1) n 0 hlt]
    simp

theorem natChars_digits (n : Nat) : ∀ c ∈ natChars n, isDigitC c = true := by
  by_cases hn : n = 0
  · subst hn
    intro c hc
    simp [natChars] at hc
    subst hc
    decide
  · rw [natChars, if_neg hn]
    exact natCharsAux_digits _ _

theorem natChars_ne_nil (n : Nat) : natChars n ≠ [] := by
  by_cases hn : n = 0
  · subst hn
    simp [natChars]
  · rw [natChars, if_neg hn, natCharsAux, if_neg hn]
    simp

theorem intChars_head : ∀ i : Int, ∃ c cs, intChars i = c :: cs ∧
    (c = '-' ∨ isDigitC c = true) := by
  intro i
  rw [intChars]
  by_cases hi : i < 0
  · rw [if_pos hi]
    exact ⟨'-', natChars i.natAbs, rfl, Or.inl rfl⟩
  · rw [if_neg hi]
    obtain ⟨c, cs, hc⟩ := List.exists_cons_of_ne_nil (natChars_ne_nil i.toNat)
    exact ⟨c, cs, hc, Or.inr (natChars_digits _ c (by rw [hc]; simp))⟩

theorem parseNumber_intChars (i : Int) (r : List Char)
    (hr : ∀ c, r.head? = some c → isDigitC c = false) :
    parseNumber (intChars i ++ r) = some (i, r) := by
  by_cases hi : i < 0
  · rw [intChars, if_pos hi, List.cons_append, parseNumber.eq_def]
    simp only [reduceIte]
    obtain ⟨ht, hd⟩ := takeWhile_digits (natChars i.natAbs) r (natChars_digits _) hr
    rw [ht, hd, if_neg (natChars_ne_nil _), charsToNat_natChars]
    have : -(i.natAbs : Int) = i := by omega
    rw [this]
  · obtain ⟨c, cs, hc⟩ := List.exists_cons_of_ne_nil (natChars_ne_nil i.toNat)
    have hcd : isDigitC c = true := natChars_digits _ c (by rw [hc]; simp)
    have hcm : c ≠ '-' := by
      intro h
      subst h
      exact absurd hcd (by decide)
    rw [intChars, if_neg hi, hc, List.cons_append, parseNumber.eq_def]
    simp only [if_neg hcm]
    obtain ⟨ht, hd⟩ := takeWhile_digits (natChars i.toNat) r (natChars_digits _) hr
    rw [hc] at ht hd
    rw [List.cons_append] at ht hd
    rw [ht, hd, if_neg (by simp), ← hc, charsToNat_natChars]
    have : ((i.toNat : Nat) : Int) = i := by omega
    rw [this]

theorem parseValue_int (i : Int) (r : List Char)
    (hr : ∀ c, r.head? = some c → isDigitC c = false) :
    parseValue (intChars i ++ r) = some (JVal.num i, r) := by
  obtain ⟨c, cs, hc, hcd⟩ := intChars_head i
  have hcq : c ≠ '"' := by
    rcases hcd with h | h
    · subst h; decide
    · intro hq
      subst hq
      exact absurd h (by decide)
  rw [hc, List.cons_append, parseValue.eq_def]
  simp only [if_neg hcq]
  rw [← List.cons_append, ← hc, parseNumber_intChars i r hr]
  rfl

theorem skipWs_not_ws (c : Char) (r : List Char)
    (h : ¬(c = ' ' ∨ c = '\n' ∨ c = '\t' ∨ c = '\r')) : skipWs (c :: r) = c :: r := by
  rw [skipWs.eq_def]
  simp only [if_neg h]

theorem skipWs_intChars (i : Int) (r : List Char) :
    skipWs (intChars i ++ r) = intChars i ++ r := by
  obtain ⟨c, cs, hc, hcd⟩ := intChars_head i
  rw [hc, List.cons_append]
  apply skipWs_not_ws
  rcases hcd with h | h
  · subst h
    decide
  · rintro (h2 | h2 | h2 | h2) <;> (subst h2; exact absurd h (by decide))

/-- One member step of the field parser: the `host` member. -/
theorem rtStage_host (n : Nat) (info : LeaderLockInfo) (s Y : List Char) :
    parseFields (n + 1) info
      ('\n' :: ' ' :: ' ' :: '"' :: 'h' :: 'o' :: 's' :: 't' :: '"' :: ':' :: ' ' :: '"'
        :: (escapeChars s ++ '"' :: ',' :: Y))
    = parseFields n ({ info with host := s }) Y := by
  rw [parseFields]
  rw [show skipWs ('\n' :: ' ' :: ' ' :: '"' :: 'h' :: 'o' :: 's' :: 't' :: '"' :: ':' :: ' '
        :: '"' :: (escapeChars s ++ '"' :: ',' :: Y))
      = '"' :: 'h' :: 'o' :: 's' :: 't' :: '"' :: ':' :: ' ' :: '"'
        :: (escapeChars s ++ '"' :: ',' :: Y) from by simp [skipWs]]
  try dsimp only
  rw [if_neg (by decide), if_pos rfl]
  rw [show parseStringBody ('h' :: 'o' :: 's' :: 't' :: '"' :: ':' :: ' ' :: '"'
        :: (escapeChars s ++ '"' :: ',' :: Y))
      = some (['h', 'o', 's', 't'], ':' :: ' ' :: '"' :: (escapeChars s ++ '"' :: ',' :: Y))
      from by simpa using (parseStringBody_plain ['h', 'o', 's', 't']
        (':' :: ' ' :: '"' :: (escapeChars s ++ '"' :: ',' :: Y)) (by decide))]
  try dsimp only
  rw [show skipWs (':' :: ' ' :: '"' :: (escapeChars s ++ '"' :: ',' :: Y))
      = ':' :: ' ' :: '"' :: (escapeChars s ++ '"' :: ',' :: Y) from by simp [skipWs]]
  try dsimp only
  rw [if_pos rfl]
  rw [show skipWs (' ' :: '"' :: (escapeChars s ++ '"' :: ',' :: Y))
      = '"' :: (escapeChars s ++ '"' :: ',' :: Y) from by simp [skipWs]]
  rw [show parseValue ('"' :: (escapeChars s ++ '"' :: ',' :: Y))
      = (parseStringBody (escapeChars s ++ '"' :: ',' :: Y)).map
          (fun p => (JVal.str p.1, p.2)) from by simp [parseValue]]
  rw [parseStringBody_escape, Option.map_some']
  try dsimp only
  rw [show setField info ['h', 'o', 's', 't'] (JVal.str s) = some ({ info with host := s })
      from by simp [setField, keyHost]]
  try dsimp only
  rw [show skipWs (',' :: Y) = ',' :: Y from by simp [skipWs]]
  try dsimp only
  rw [if_pos rfl]

/-- One member step of the field parser: the `api` member. -/
theorem rtStage_api (n : Nat) (info : LeaderLockInfo) (s Y : List Char) :
    parseFields (n + 1) info
      ('\n' :: ' ' :: ' ' :: '"' :: 'a' :: 'p' :: 'i' :: '"' :: ':' :: ' ' :: '"'
        :: (escapeChars s ++ '"' :: ',' :: Y))
    = parseFields n ({ info with api := s }) Y := by
  rw [parseFields]
  rw [show skipWs ('\n' :: ' ' :: ' ' :: '"' :: 'a' :: 'p' :: 'i' :: '"' :: ':' :: ' '
        :: '"' :: (escapeChars s ++ '"' :: ',' :: Y))
      = '"' :: 'a' :: 'p' :: 'i' :: '"' :: ':' :: ' ' :: '"'
        :: (escapeChars s ++ '"' :: ',' :: Y) from by simp [skipWs]]
  try dsimp only
  rw [if_neg (by decide), if_pos rfl]
  rw [show parseStringBody ('a' :: 'p' :: 'i' :: '"' :: ':' :: ' ' :: '"'
        :: (escapeChars s ++ '"' :: ',' :: Y))
      = some (['a', 'p', 'i'], ':' :: ' ' :: '"' :: (escapeChars s ++ '"' :: ',' :: Y))
      from by simpa using (parseStringBody_plain ['a', 'p', 'i']
        (':' :: ' ' :: '"' :: (escapeChars s ++ '"' :: ',' :: Y)) (by decide))]
  try dsimp only
  rw [show skipWs (':' :: ' ' :: '"' :: (escapeChars s ++ '"' :: ',' :: Y))
      = ':' :: ' ' :: '"' :: (escapeChars s ++ '"' :: ',' :: Y) from by simp [skipWs]]
  try dsimp only
  rw [if_pos rfl]
  rw [show skipWs (' ' :: '"' :: (escapeChars s ++ '"' :: ',' :: Y))
      = '"' :: (escapeChars s ++ '"' :: ',' :: Y) from by simp [skipWs]]
  rw [show parseValue ('"' :: (escapeChars s ++ '"' :: ',' :: Y))
      = (parseStringBody (escapeChars s ++ '"' :: ',' :: Y)).map
          (fun p => (JVal.str p.1, p.2)) from by simp [parseValue]]
  rw [parseStringBody_escape, Option.map_some']
  try dsimp only
  rw [show setField info ['a', 'p', 'i'] (JVal.str s) = some ({ info with api := s })
      from by simp [setField, keyHost, keyApi]]
  try dsimp only
  rw [show skipWs (',' :: Y) = ',' :: Y from by simp [skipWs]]
  try dsimp only
  rw [if_pos rfl]

/-- One member step of the field parser: the `http` member. -/
theorem rtStage_http (n : Nat) (info : LeaderLockInfo) (s Y : List Char) :
    parseFields (n + 1) info
      ('\n' :: ' ' :: ' ' :: '"' :: 'h' :: 't' :: 't' :: 'p' :: '"' :: ':' :: ' ' :: '"'
        :: (escapeChars s ++ '"' :: ',' :: Y))
    = parseFields n ({ info with http := s }) Y := by
  rw [parseFields]
  rw [show skipWs ('\n' :: ' ' :: ' ' :: '"' :: 'h' :: 't' :: 't' :: 'p' :: '"' :: ':' :: ' '
        :: '"' :: (escapeChars s ++ '"' :: ',' :: Y))
      = '"' :: 'h' :: 't' :: 't' :: 'p' :: '"' :: ':' :: ' ' :: '"'
        :: (escapeChars s ++ '"' :: ',' :: Y) from by simp [skipWs]]
  try dsimp only
  rw [if_neg (by decide), if_pos rfl]
  rw [show parseStringBody ('h' :: 't' :: 't' :: 'p' :: '"' :: ':' :: ' ' :: '"'
        :: (escapeChars s ++ '"' :: ',' :: Y))
      = some (['h', 't', 't', 'p'], ':' :: ' ' :: '"' :: (escapeChars s ++ '"' :: ',' :: Y))
      from by simpa using (parseStringBody_plain ['h', 't', 't', 'p']
        (':' :: ' ' :: '"' :: (escapeChars s ++ '"' :: ',' :: Y)) (by decide))]
  try dsimp only
  rw [show skipWs (':' :: ' ' :: '"' :: (escapeChars s ++ '"' :: ',' :: Y))
      = ':' :: ' ' :: '"' :: (escapeChars s ++ '"' :: ',' :: Y) from by simp [skipWs]]
  try dsimp only
  rw [if_pos rfl]
  rw [show skipWs (' ' :: '"' :: (escapeChars s ++ '"' :: ',' :: Y))
      = '"' :: (escapeChars s ++ '"' :: ',' :: Y) from by simp [skipWs]]
  rw [show parseValue ('"' :: (escapeChars s ++ '"' :: ',' :: Y))
      = (parseStringBody (escapeChars s ++ '"' :: ',' :: Y)).map
          (fun p => (JVal.str p.1, p.2)) from by simp [parseValue]]
  rw [parseStringBody_escape, Option.map_some']
  try dsimp only
  rw [show setField info ['h', 't', 't', 'p'] (JVal.str s) = some ({ info with http := s })
      from by simp [setField, keyHost, keyApi, keyHttp]]
  try dsimp only
  rw [show skipWs (',' :: Y) = ',' :: Y from by simp [skipWs]]
  try dsimp only
  rw [if_pos rfl]

/-- One member step of the field parser: the `baseUrl` member. -/
theorem rtStage_baseUrl (n : Nat) (info : LeaderLockInfo) (s Y : List Char) :
    parseFields (n + 1) info
      ('\n' :: ' ' :: ' ' :: '"' :: 'b' :: 'a' :: 's' :: 'e' :: 'U' :: 'r' :: 'l' :: '"'
        :: ':' :: ' ' :: '"' :: (escapeChars s ++ '"' :: ',' :: Y))
    = parseFields n ({ info with baseUrl := s }) Y := by
  rw [parseFields]
  rw [show skipWs ('\n' :: ' ' :: ' ' :: '"' :: 'b' :: 'a' :: 's' :: 'e' :: 'U' :: 'r' :: 'l'
        :: '"' :: ':' :: ' ' :: '"' :: (escapeChars s ++ '"' :: ',' :: Y))
      = '"' :: 'b' :: 'a' :: 's' :: 'e' :: 'U' :: 'r' :: 'l' :: '"' :: ':' :: ' ' :: '"'
        :: (escapeChars s ++ '"' :: ',' :: Y) from by simp [skipWs]]
  try dsimp only
  rw [if_neg (by decide), if_pos rfl]
  rw [show parseStringBody ('b' :: 'a' :: 's' :: 'e' :: 'U' :: 'r' :: 'l' :: '"' :: ':' :: ' '
        :: '"' :: (escapeChars s ++ '"' :: ',' :: Y))
      = some (['b', 'a', 's', 'e', 'U', 'r', 'l'],
          ':' :: ' ' :: '"' :: (escapeChars s ++ '"' :: ',' :: Y))
      from by simpa using (parseStringBody_plain ['b', 'a', 's', 'e', 'U', 'r', 'l']
        (':' :: ' ' :: '"' :: (escapeChars s ++ '"' :: ',' :: Y)) (by decide))]
  try dsimp only
  rw [show skipWs (':' :: ' ' :: '"' :: (escapeChars s ++ '"' :: ',' :: Y))
      = ':' :: ' ' :: '"' :: (escapeChars s ++ '"' :: ',' :: Y) from by simp [skipWs]]
  try dsimp only
  rw [if_pos rfl]
  rw [show skipWs (' ' :: '"' :: (escapeChars s ++ '"' :: ',' :: Y))
      = '"' :: (escapeChars s ++ '"' :: ',' :: Y) from by simp [skipWs]]
  rw [show parseValue ('"' :: (escapeChars s ++ '"' :: ',' :: Y))
      = (parseStringBody (escapeChars s ++ '"' :: ',' :: Y)).map
          (fun p => (JVal.str p.1, p.2)) from by simp [parseValue]]
  rw [parseStringBody_escape, Option.map_some']
  try dsimp only
  rw [show setField info ['b', 'a', 's', 'e', 'U', 'r', 'l'] (JVal.str s)
      = some ({ info with baseUrl := s })
      from by simp [setField, keyHost, keyApi, keyHttp, keyBaseUrl]]
  try dsimp only
  rw [show skipWs (',' :: Y) = ',' :: Y from by simp [skipWs]]
  try dsimp only
  rw [if_pos rfl]

/-- One member step of the field parser: the `timestamp` member. -/
theorem rtStage_timestamp (n : Nat) (info : LeaderLockInfo) (i : Int) (Y : List Char) :
    parseFields (n + 1) info
      ('\n' :: ' ' :: ' ' :: '"' :: 't' :: 'i' :: 'm' :: 'e' :: 's' :: 't' :: 'a' :: 'm'
        :: 'p' :: '"' :: ':' :: ' ' :: (intChars i ++ ',' :: Y))
    = parseFields n ({ info with timestamp := i }) Y := by
  rw [parseFields]
  rw [show skipWs ('\n' :: ' ' :: ' ' :: '"' :: 't' :: 'i' :: 'm' :: 'e' :: 's' :: 't' :: 'a'
        :: 'm' :: 'p' :: '"' :: ':' :: ' ' :: (intChars i ++ ',' :: Y))
      = '"' :: 't' :: 'i' :: 'm' :: 'e' :: 's' :: 't' :: 'a' :: 'm' :: 'p' :: '"' :: ':'
        :: ' ' :: (intChars i ++ ',' :: Y) from by simp [skipWs]]
  try dsimp only
  rw [if_neg (by decide), if_pos rfl]
  rw [show parseStringBody ('t' :: 'i' :: 'm' :: 'e' :: 's' :: 't' :: 'a' :: 'm' :: 'p' :: '"'
        :: ':' :: ' ' :: (intChars i ++ ',' :: Y))
      = some (['t', 'i', 'm', 'e', 's', 't', 'a', 'm', 'p'],
          ':' :: ' ' :: (intChars i ++ ',' :: Y))
      from by simpa using (parseStringBody_plain ['t', 'i', 'm', 'e', 's', 't', 'a', 'm', 'p']
        (':' :: ' ' :: (intChars i ++ ',' :: Y)) (by decide))]
  try dsimp only
  rw [show skipWs (':' :: ' ' :: (intChars i ++ ',' :: Y))
      = ':' :: ' ' :: (intChars i ++ ',' :: Y) from by simp [skipWs]]
  try dsimp only
  rw [if_pos rfl]
  rw [show skipWs (' ' :: (intChars i ++ ',' :: Y)) = skipWs (intChars i ++ ',' :: Y)
      from by simp [skipWs]]
  rw [skipWs_intChars]
  rw [parseValue_int i (',' :: Y) (by intro c hc; simp at hc; subst hc; decide)]
  try dsimp only
  rw [show setField info ['t', 'i', 'm', 'e', 's', 't', 'a', 'm', 'p'] (JVal.num i)
      = some ({ info with timestamp := i })
      from by simp [setField, keyHost, keyApi, keyHttp, keyBaseUrl, keyTimestamp]]
  try dsimp only
  rw [show skipWs (',' :: Y) = ',' :: Y from by simp [skipWs]]
  try dsimp only
  rw [if_pos rfl]

/-- The final member step of the field parser: the `pid` member and the
closing brace. -/
theorem rtStage_pid (n : Nat) (info : LeaderLockInfo) (i : Int) :
    parseFields (n + 1) info
      ('\n' :: ' ' :: ' ' :: '"' :: 'p' :: 'i' :: 'd' :: '"' :: ':' :: ' '
        :: (intChars i ++ '\n' :: rbraceChar :: []))
    = some ({ info with pid := i }, []) := by
  rw [parseFields]
  rw [show skipWs ('\n' :: ' ' :: ' ' :: '"' :: 'p' :: 'i' :: 'd' :: '"' :: ':' :: ' '
        :: (intChars i ++ '\n' :: rbraceChar :: []))
      = '"' :: 'p' :: 'i' :: 'd' :: '"' :: ':' :: ' '
        :: (intChars i ++ '\n' :: rbraceChar :: []) from by simp [skipWs]]
  try dsimp only
  rw [if_neg (by decide), if_pos rfl]
  rw [show parseStringBody ('p' :: 'i' :: 'd' :: '"' :: ':' :: ' '
        :: (intChars i ++ '\n' :: rbraceChar :: []))
      = some (['p', 'i', 'd'], ':' :: ' ' :: (intChars i ++ '\n' :: rbraceChar :: []))
      from by simpa using (parseStringBody_plain ['p', 'i', 'd']
        (':' :: ' ' :: (intChars i ++ '\n' :: rbraceChar :: [])) (by decide))]
  try dsimp only
  rw [show skipWs (':' :: ' ' :: (intChars i ++ '\n' :: rbraceChar :: []))
      = ':' :: ' ' :: (intChars i ++ '\n' :: rbraceChar :: []) from by simp [skipWs]]
  try dsimp only
  rw [if_pos rfl]
  rw [show skipWs (' ' :: (intChars i ++ '\n' :: rbraceChar :: []))
      = skipWs (intChars i ++ '\n' :: rbraceChar :: []) from by simp [skipWs]]
  rw [skipWs_intChars]
  rw [parseValue_int i ('\n' :: rbraceChar :: [])
    (by intro c hc; simp at hc; subst hc; decide)]
  try dsimp only
  rw [show setField info ['p', 'i', 'd'] (JVal.num i) = some ({ info with pid := i })
      from by simp [setField, keyHost, keyApi, keyHttp, keyBaseUrl, keyTimestamp, keyPid]]
  try dsimp only
  rw [show skipWs ('\n' :: rbraceChar :: []) = rbraceChar :: [] from by decide]
  try dsimp only
  rw [if_neg (by decide), if_pos rfl]

/-- Round trip: unmarshalling the exact `MarshalIndent` output recovers the
original `LeaderLockInfo` value. -/
theorem unmarshal_marshal (info : LeaderLockInfo) :
    unmarshalLeaderInfo (marshalLeaderInfo info) = some info := by
  have hpeel : ∀ R : List Char, unmarshalLeaderInfo (lbraceChar :: R)
      = (match parseFields 8 zeroLeaderLockInfo R with
         | some (inf, rest) => if skipWs rest = [] then some inf else none
         | none => none) := fun R => rfl
  rcases info with ⟨host, api, http, baseUrl, ts, pid⟩
  by_cases hb : baseUrl = []
  · subst hb
    have hm : marshalLeaderInfo ⟨host, api, http, [], ts, pid⟩
        = lbraceChar ::
          '\n' :: ' ' :: ' ' :: '"' :: 'h' :: 'o' :: 's' :: 't' :: '"' :: ':' :: ' ' :: '"'
            :: (escapeChars host ++ '"' :: ',' ::
          '\n' :: ' ' :: ' ' :: '"' :: 'a' :: 'p' :: 'i' :: '"' :: ':' :: ' ' :: '"'
            :: (escapeChars api ++ '"' :: ',' ::
          '\n' :: ' ' :: ' ' :: '"' :: 'h' :: 't' :: 't' :: 'p' :: '"' :: ':' :: ' ' :: '"'
            :: (escapeChars http ++ '"' :: ',' ::
          '\n' :: ' ' :: ' ' :: '"' :: 't' :: 'i' :: 'm' :: 'e' :: 's' :: 't' :: 'a' :: 'm'
            :: 'p' :: '"' :: ':' :: ' ' :: (intChars ts ++ ',' ::
          '\n' :: ' ' :: ' ' :: '"' :: 'p' :: 'i' :: 'd' :: '"' :: ':' :: ' '
            :: (intChars pid ++ '\n' :: rbraceChar :: []))))) := by
      simp [marshalLeaderInfo, fieldStr, fieldInt, sepInd, keyHost, keyApi, keyHttp,
        keyTimestamp, keyPid, List.append_assoc]
    rw [hm, hpeel]
    have hp : parseFields 8 zeroLeaderLockInfo
        ('\n' :: ' ' :: ' ' :: '"' :: 'h' :: 'o' :: 's' :: 't' :: '"' :: ':' :: ' ' :: '"'
            :: (escapeChars host ++ '"' :: ',' ::
          '\n' :: ' ' :: ' ' :: '"' :: 'a' :: 'p' :: 'i' :: '"' :: ':' :: ' ' :: '"'
            :: (escapeChars api ++ '"' :: ',' ::
          '\n' :: ' ' :: ' ' :: '"' :: 'h' :: 't' :: 't' :: 'p' :: '"' :: ':' :: ' ' :: '"'
            :: (escapeChars http ++ '"' :: ',' ::
          '\n' :: ' ' :: ' ' :: '"' :: 't' :: 'i' :: 'm' :: 'e' :: 's' :: 't' :: 'a' :: 'm'
            :: 'p' :: '"' :: ':' :: ' ' :: (intChars ts ++ ',' ::
          '\n' :: ' ' :: ' ' :: '"' :: 'p' :: 'i' :: 'd' :: '"' :: ':' :: ' '
            :: (intChars pid ++ '\n' :: rbraceChar :: []))))))
        = some (⟨host, api, http, [], ts, pid⟩, []) :=
      (rtStage_host 7 zeroLeaderLockInfo host _).trans
        ((rtStage_api 6 _ api _).trans
          ((rtStage_http 5 _ http _).trans
            ((rtStage_timestamp 4 _ ts _).trans
              (rtStage_pid 3 _ pid))))
    rw [hp]
    rfl
  · have hm : marshalLeaderInfo ⟨host, api, http, baseUrl, ts, pid⟩
        = lbraceChar ::
          '\n' :: ' ' :: ' ' :: '"' :: 'h' :: 'o' :: 's' :: 't' :: '"' :: ':' :: ' ' :: '"'
            :: (escapeChars host ++ '"' :: ',' ::
          '\n' :: ' ' :: ' ' :: '"' :: 'a' :: 'p' :: 'i' :: '"' :: ':' :: ' ' :: '"'
            :: (escapeChars api ++ '"' :: ',' ::
          '\n' :: ' ' :: ' ' :: '"' :: 'h' :: 't' :: 't' :: 'p' :: '"' :: ':' :: ' ' :: '"'
            :: (escapeChars http ++ '"' :: ',' ::
          '\n' :: ' ' :: ' ' :: '"' :: 'b' :: 'a' :: 's' :: 'e' :: 'U' :: 'r' :: 'l' :: '"'
            :: ':' :: ' ' :: '"' :: (escapeChars baseUrl ++ '"' :: ',' ::
          '\n' :: ' ' :: ' ' :: '"' :: 't' :: 'i' :: 'm' :: 'e' :: 's' :: 't' :: 'a' :: 'm'
            :: 'p' :: '"' :: ':' :: ' ' :: (intChars ts ++ ',' ::
          '\n' :: ' ' :: ' ' :: '"' :: 'p' :: 'i' :: 'd' :: '"' :: ':' :: ' '
            :: (intChars pid ++ '\n' :: rbraceChar :: [])))))) := by
      simp [marshalLeaderInfo, fieldStr, fieldInt, sepInd, keyHost, keyApi, keyHttp,
        keyBaseUrl, keyTimestamp, keyPid, List.append_assoc, hb]
    rw [hm, hpeel]
    have hp : parseFields 8 zeroLeaderLockInfo
        ('\n' :: ' ' :: ' ' :: '"' :: 'h' :: 'o' :: 's' :: 't' :: '"' :: ':' :: ' ' :: '"'
            :: (escapeChars host ++ '"' :: ',' ::
          '\n' :: ' ' :: ' ' :: '"' :: 'a' :: 'p' :: 'i' :: '"' :: ':' :: ' ' :: '"'
            :: (escapeChars api ++ '"' :: ',' ::
          '\n' :: ' ' :: ' ' :: '"' :: 'h' :: 't' :: 't' :: 'p' :: '"' :: ':' :: ' ' :: '"'
            :: (escapeChars http ++ '"' :: ',' ::
          '\n' :: ' ' :: ' ' :: '"' :: 'b' :: 'a' :: 's' :: 'e' :: 'U' :: 'r' :: 'l' :: '"'
            :: ':' :: ' ' :: '"' :: (escapeChars baseUrl ++ '"' :: ',' ::
          '\n' :: ' ' :: ' ' :: '"' :: 't' :: 'i' :: 'm' :: 'e' :: 's' :: 't' :: 'a' :: 'm'
            :: 'p' :: '"' :: ':' :: ' ' :: (intChars ts ++ ',' ::
          '\n' :: ' ' :: ' ' :: '"' :: 'p' :: 'i' :: 'd' :: '"' :: ':' :: ' '
            :: (intChars pid ++ '\n' :: rbraceChar :: [])))))))
        = some (⟨host, api, http, baseUrl, ts, pid⟩, []) :=
      (rtStage_host 7 zeroLeaderLockInfo host _).trans
        ((rtStage_api 6 _ api _).trans
          ((rtStage_http 5 _ http _).trans
            ((rtStage_baseUrl 4 _ baseUrl _).trans
              ((rtStage_timestamp 3 _ ts _).trans
                (rtStage_pid 2 _ pid)))))
    rw [hp]
    rfl

/-- C8: publishing leader coordinates (write `<target>.tmp`, rename onto the
info path) and then reading the file back yields exactly the published
coordinates. -/
theorem claimC8_publish_read (cfg : ElectionConfig) (fs : FsMap) (info : LeaderLockInfo) :
    ∃ fs2, writeLeaderInfoFs cfg fs info = some fs2 ∧
      readLeaderInfoFs cfg fs2 = Except.ok (some info) := by
  obtain ⟨fs2, hw, hl⟩ := writeLeaderInfoFs_publishes cfg fs info
  refine ⟨fs2, hw, ?_⟩
  rw [readLeaderInfoFs, hl]
  try dsimp only
  rw [unmarshal_marshal]

/-- Witness for C4: three rapid changes to one path coalesce into a single
callback carrying the last event, fired one window after the last add. -/
theorem claimC4_debounce_coalesces_witness :
    (runCluster 200 [(0, evAt "foo" 0), (50, evAt "foo" 50), (100, evAt "foo" 100)]).fired
      = [(300, evAt "foo" 100)] :=
  (claimC4_debounce_coalesces 200 "foo" (0, evAt "foo" 0)
      [(50, evAt "foo" 50), (100, evAt "foo" 100)]
      (by intro a ha; fin_cases ha <;> rfl)
      (by constructor
          · exact ⟨by omega, by omega⟩
          · constructor
            · exact ⟨by omega, by omega⟩
            · exact List.chain'_singleton _)).1

theorem beBytes_length (n : Nat) : ∀ x, (beBytes n x).length = n := by
  induction n with
  | zero => intro x; rfl
  | succ m ih => intro x; rw [beBytes]; simp [ih]

theorem sha256_length (msg : List Nat) : (sha256 msg).length = 32 := by
  rw [sha256]
  simp [beBytes_length]

theorem length_flatMap_byteBits (l : List Nat) :
    (l.flatMap byteBits).length = 8 * l.length := by
  induction l with
  | nil => rfl
  | cons b bs ihb =>
    simp only [List.flatMap_cons, List.length_append, List.length_cons, ihb, byteBits]
    simp only [List.length_cons, List.length_nil]
    omega

theorem encodeB32_length (bits : List Bool) :
    (encodeB32 bits).length = (bits.length + 4) / 5 := by
  induction bits using encodeB32.induct with
  | case1 => rw [encodeB32]; rfl
  | case2 b rest ih =>
    rw [encodeB32]
    simp only [List.length_cons, ih, List.length_drop]
    omega

theorem computeFileCID_length (fileBytes : List Nat) :
    (computeFileCID fileBytes).length = 59 := by
  rw [computeFileCID]
  simp only [List.length_cons, List.length_map]
  rw [encodeB32_length, length_flatMap_byteBits, cidBytes]
  simp only [List.length_cons]
  rw [sha256_length]

/-- C7: the content identifier computed by `handleComputeFileCID` is the
ASCII letter `b` followed by the lowercase unpadded base32 encoding of the
bytes `0x01 0x55 0x12 0x20` followed by the 32-byte SHA-256 digest of the
whole file; the resulting string is 59 characters long including the `b`
(4 + 32 = 36 bytes encode to 58 base32 characters), not 62 as claimed. -/
theorem claimC7_cid_format (fileBytes : List Nat) :
    computeFileCID fileBytes
      = 'b' :: (encodeB32 ((0x01 :: 0x55 :: 0x12 :: 0x20
          :: sha256 fileBytes).flatMap byteBits)).map lowerChar
    ∧ (sha256 fileBytes).length = 32
    ∧ (computeFileCID fileBytes).length = 59 :=
  ⟨rfl, sha256_length fileBytes, computeFileCID_length fileBytes⟩

/-- C7 counterexample: for the empty file (a concrete input) the CID string
has 59 characters, not the 62 demanded by the claim. -/
theorem claimC7_counterexample : (computeFileCID []).length ≠ 62 := by
  rw [computeFileCID_length]
  decide

end MetaCore
